import Mathlib

/-!
Verification development for the Automated-Parcel-Sorting-System repository.

The Python source is shallowly embedded: strings are `List Char` (Python
strings are sequences of code points, as is `String.data`), dicts are
association lists in insertion order, and the regular expressions of the
source are modelled by purpose-built total functions that reproduce the
`re` semantics (leftmost match, greedy/lazy quantifiers, the concrete
backtracking behaviour) of the concrete patterns appearing in the source.

Conventions kept throughout:
* `re` character class `\s` and Python `str.strip()` are modelled by `ws`,
  covering the whitespace characters that can occur in label text
  (space, tab, newline, carriage return, vertical tab, form feed);
* `\d` is modelled by ASCII and Thai decimal digits;
* case-insensitive matching lowers ASCII letters, which is faithful for the
  ASCII/Thai marker literals of the source.
-/

namespace ParcelSort

/-- Python strings as lists of code points. -/
abbrev Str := List Char

/-- Whitespace for `\s` / `str.strip()`. -/
def ws (c : Char) : Bool :=
  c = ' ' || c = '\t' || c = '\n' || c = '\r' || c = '\x0b' || c = '\x0c'

/-- Decimal digits for `\d` (ASCII `0-9` and Thai `๐-๙`). -/
def isDigitPy (c : Char) : Bool :=
  ('0' ≤ c && c ≤ '9') || (0x0E50 ≤ c.val && c.val ≤ 0x0E59)

/-- The character class `[฀-๿]` of the fuzzy-matching layer. -/
def isThai (c : Char) : Bool :=
  0x0E00 ≤ c.val && c.val ≤ 0x0E7F

/-- ASCII lowercasing, modelling `re.IGNORECASE` for the ASCII literals used. -/
def toLow (c : Char) : Char :=
  if 65 ≤ c.toNat && c.toNat ≤ 90 then Char.ofNat (c.toNat + 32) else c

/-- Python `str.strip()`. -/
def pyStrip (l : Str) : Str :=
  ((l.dropWhile ws).reverse.dropWhile ws).reverse

/-- Characters that are not whitespace: used to state content preservation. -/
def removeWs (l : Str) : Str := l.filter (fun c => !(ws c))

/-- Python substring test `needle in haystack`. -/
def isSub (p : Str) : Str → Bool
  | [] => p.isEmpty
  | c :: cs => p.isPrefixOf (c :: cs) || isSub p cs

/-- `text.replace(" ", "")`. -/
def nospace (t : Str) : Str := t.filter (fun c => !(c == ' '))

/-- `re.search(lit + "(X+)", text)` for a literal `lit` followed by a greedy
group of characters satisfying `ok`: returns group 1 of the leftmost match
(the maximal `ok`-run after the first occurrence of `lit` that is followed
by at least one `ok` character). -/
def findCand (lit : Str) (ok : Char → Bool) : Str → Option Str
  | [] => none
  | c :: cs =>
    if lit.isPrefixOf (c :: cs) then
      let grp := ((c :: cs).drop lit.length).takeWhile ok
      if grp.isEmpty then findCand lit ok cs else some grp
    else findCand lit ok cs

/-- `CompleteParcelSortingSystem.all_provinces` (process.py): the 77 canonical
province names, in source order. -/
def all_provinces : List Str :=
  (["กรุงเทพมหานคร", "กระบี่", "กาญจนบุรี", "กาฬสินธุ์", "กำแพงเพชร",
    "ขอนแก่น", "จันทบุรี", "ฉะเชิงเทรา", "ชลบุรี", "ชัยนาท", "ชัยภูมิ",
    "ชุมพร", "เชียงราย", "เชียงใหม่", "ตรัง", "ตราด", "ตาก",
    "นครนายก", "นครปฐม", "นครพนม", "นครราชสีมา", "นครศรีธรรมราช",
    "นครสวรรค์", "นนทบุรี", "นราธิวาส", "น่าน", "บึงกาฬ", "บุรีรัมย์",
    "ปทุมธานี", "ประจวบคีรีขันธ์", "ปราจีนบุรี", "ปัตตานี", "พระนครศรีอยุธยา",
    "พะเยา", "พังงา", "พัทลุง", "พิจิตร", "พิษณุโลก", "เพชรบุรี", "เพชรบูรณ์",
    "แพร่", "ภูเก็ต", "มหาสารคาม", "มุกดาหาร", "แม่ฮ่องสอน",
    "ยโสธร", "ยะลา", "ร้อยเอ็ด", "ระนอง", "ระยอง", "ราชบุรี",
    "ลพบุรี", "ลำปาง", "ลำพูน", "เลย", "ศรีสะเกษ", "สกลนคร",
    "สงขลา", "สตูล", "สมุทรปราการ", "สมุทรสงคราม", "สมุทรสาคร",
    "สระแก้ว", "สระบุรี", "สิงห์บุรี", "สุโขทัย", "สุพรรณบุรี",
    "สุราษฎร์ธานี", "สุรินทร์", "หนองคาย", "หนองบัวลำภู",
    "อ่างทอง", "อำนาจเจริญ", "อุดรธานี", "อุตรดิตถ์", "อุทัยธานี",
    "อุบลราชธานี"] : List String).map String.data

/-- `CompleteParcelSortingSystem.region_mapping` (process.py). -/
def region_mapping : List (Str × List Str) :=
  [("ภาคเหนือ".data,
    (["เชียงใหม่", "เชียงราย", "ลำปาง", "ลำพูน", "แม่ฮ่องสอน",
      "น่าน", "พะเยา", "แพร่", "อุตรดิตถ์", "ตาก", "สุโขทัย",
      "พิษณุโลก", "เพชรบูรณ์", "กำแพงเพชร", "นครสวรรค์", "พิจิตร",
      "อุทัยธานี"] : List String).map String.data),
   ("ภาคตะวันออกเฉียงเหนือ".data,
    (["นครราชสีมา", "ขอนแก่น", "อุดรธานี", "อุบลราชธานี",
      "บุรีรัมย์", "สุรินทร์", "ศรีสะเกษ", "ยโสธร", "ชัยภูมิ",
      "มหาสารคาม", "ร้อยเอ็ด", "กาฬสินธุ์", "สกลนคร", "นครพนม",
      "มุกดาหาร", "เลย", "หนองคาย", "บึงกาฬ", "หนองบัวลำภู",
      "อำนาจเจริญ"] : List String).map String.data),
   ("ภาคกลาง".data,
    (["กรุงเทพมหานคร", "นนทบุรี", "ปทุมธานี", "สมุทรปราการ",
      "นครปฐม", "สมุทรสาคร", "สมุทรสงคราม", "พระนครศรีอยุธยา",
      "อ่างทอง", "สิงห์บุรี", "ชัยนาท", "ลพบุรี", "สระบุรี"] : List String).map String.data),
   ("ภาคตะวันออก".data,
    (["ชลบุรี", "ระยอง", "จันทบุรี", "ตราด", "ฉะเชิงเทรา",
      "ปราจีนบุรี", "นครนายก", "สระแก้ว"] : List String).map String.data),
   ("ภาคตะวันตก".data,
    (["กาญจนบุรี", "ราชบุรี", "สุพรรณบุรี", "เพชรบุรี",
      "ประจวบคีรีขันธ์"] : List String).map String.data),
   ("ภาคใต้".data,
    (["สงขลา", "ภูเก็ต", "สุราษฎร์ธานี", "นครศรีธรรมราช", "ตรัง",
      "พัทลุง", "ปัตตานี", "ยะลา", "นราธิวาส", "กระบี่", "พังงา",
      "ระนอง", "ชุมพร", "สตูล"] : List String).map String.data)]

/-- `CompleteParcelSortingSystem.get_region` (process.py): first region whose
province list contains the province, else the unresolved-region sentinel. -/
def get_region (p : Str) : Str :=
  match region_mapping.find? (fun rp => rp.2.contains p) with
  | some rp => rp.1
  | none => "ไม่ระบุภาค".data

/-- Characters allowed in group 1 of the patterns `จ\.([^\s\d]+)` and
`จังหวัด([^\s\d]+)`. -/
def notWsDigit (c : Char) : Bool := !(ws c) && !(isDigitPy c)

/-- The candidate-acceptance loop of pattern layer 1 of
`extract_province_from_text`: first canonical province that equals, or has as
a substring, the candidate. -/
def candLookup (cand : Str) : Option Str :=
  all_provinces.find? (fun p => cand == p || isSub cand p)

/-- Pattern layer 1, second pattern `จังหวัด([^\s\d]+)`. -/
def layer1Changwat (t : Str) : Option Str :=
  match findCand "จังหวัด".data notWsDigit t with
  | some cand => candLookup (pyStrip cand)
  | none => none

/-- Pattern layer 1 of `extract_province_from_text`: `จ\.([^\s\d]+)` first,
falling through to `จังหวัด([^\s\d]+)` when the first pattern is absent or
its candidate is not accepted. -/
def layer1 (t : Str) : Option Str :=
  match findCand "จ.".data notWsDigit t with
  | some cand =>
    match candLookup (pyStrip cand) with
    | some p => some p
    | none => layer1Changwat t
  | none => layer1Changwat t

/-- Layer 2 of `extract_province_from_text`: direct substring match of a
canonical name in the text, exact then whitespace-stripped. -/
def layer2 (t : Str) : Option Str :=
  all_provinces.find? (fun p => isSub p t || isSub (nospace p) (nospace t))

/-- Accumulator loop of `thaiTokens`; `cur` is the reversed current run. -/
def thaiTokensGo (cur : Str) : Str → List Str
  | [] => if cur.isEmpty then [] else [cur.reverse]
  | c :: cs =>
    if isThai c then thaiTokensGo (c :: cur) cs
    else if cur.isEmpty then thaiTokensGo [] cs
    else cur.reverse :: thaiTokensGo [] cs

/-- `re.findall(r'[฀-๿]+', text)`: the maximal runs of Thai-script
characters. -/
def thaiTokens (t : Str) : List Str := thaiTokensGo [] t

/-- Layer 3 of `extract_province_from_text`: fuzzy token-set intersection
(first canonical name sharing a Thai token with the text; `set.intersection`
being non-empty is tested as a shared member). -/
def layer3 (t : Str) : Option Str :=
  all_provinces.find? (fun p => (thaiTokens p).any (fun w => (thaiTokens t).contains w))

/-- `CompleteParcelSortingSystem.extract_province_from_text` (process.py):
empty text short-circuits to `None`; otherwise the text is stripped and the
three layers are tried in order. -/
def extract_province_from_text (t : Str) : Option Str :=
  if t.isEmpty then none
  else
    let u := pyStrip t
    match layer1 u with
    | some p => some p
    | none =>
      match layer2 u with
      | some p => some p
      | none => layer3 u

/-- `extract_province_from_text` with its third (fuzzy token-intersection)
layer removed, the comparison point of the redundancy claim. -/
def extract_province_without_layer3 (t : Str) : Option Str :=
  if t.isEmpty then none
  else
    let u := pyStrip t
    match layer1 u with
    | some p => some p
    | none => layer2 u

/-- `text.lower()` での ASCII lowering applied pointwise, modelling the
`re.IGNORECASE` flag of the marker searches. -/
def lowerStr (t : Str) : Str := t.map toLow

/-- First position (if any) whose suffix satisfies `p`; the scanning loop of
`re.search`/`re.finditer` start positions for non-empty-match patterns. -/
def firstPosSuch (p : Str → Bool) : Str → Option Nat
  | [] => none
  | c :: cs => if p (c :: cs) then some 0 else (firstPosSuch p cs).map (· + 1)

/-- The sender-marker literals of `smart_split_sender_recipient`; the
`\s*[:：]?` tails of the patterns do not move the match start. -/
def sender_markers : List Str := ["ผู้ส่ง".data, "sender".data, "from".data]

/-- The recipient-marker literals of `smart_split_sender_recipient`. -/
def recipient_markers : List Str := ["ผู้รับ".data, "recipient".data, "to".data]

/-- `min` of all match starts of the marker patterns over all `finditer`
calls: the earliest position at which some literal occurs (the patterns share
no prefixes, and their optional tails never hide a later occurrence of the
same literal, so finditer's non-overlap cannot drop a candidate minimum). -/
def firstOcc (lits : List Str) (t : Str) : Option Nat :=
  firstPosSuch (fun u => lits.any (fun l => l.isPrefixOf u)) t

/-- The character class `[0-9\s\-]` of the phone heuristic. -/
def isPhoneClass (c : Char) : Bool := ('0' ≤ c && c ≤ '9') || ws c || c = '-'

/-- The label alternatives `(?:โทร|tel|phone)` of the phone pattern. -/
def phoneLits : List Str := ["โทร".data, "tel".data, "phone".data]

/-- Match length at the head of `u` (lowered text) for
`(?:โทร|tel|phone)\s*[:：]?\s*[0-9\s\-]{9,}`: a label alternative, then —
following the greedy/backtracking order of `re` and using that `[0-9\s\-]`
contains all of `\s` — either a colon after the whitespace run with at least
nine class characters behind it, or at least nine class characters directly
after the label. -/
def phoneAt (u : Str) : Option Nat :=
  match phoneLits.find? (fun l => l.isPrefixOf u) with
  | none => none
  | some l =>
    let rest := u.drop l.length
    let w := rest.takeWhile ws
    let noColon :=
      let d0 := rest.takeWhile isPhoneClass
      if 9 ≤ d0.length then some (l.length + d0.length) else none
    match rest.drop w.length with
    | c :: cs =>
      if c = ':' || c = '：' then
        let d := cs.takeWhile isPhoneClass
        if 9 ≤ d.length then some (l.length + w.length + 1 + d.length) else noColon
      else noColon
    | [] => noColon

/-- Scanning loop of `phoneStarts`; every step consumes at least one
character, so the character count is enough fuel for structural recursion. -/
def phoneStartsGo : Nat → Str → Nat → List Nat
  | 0, _, _ => []
  | _ + 1, [], _ => []
  | fuel + 1, c :: cs, i =>
    match phoneAt (c :: cs) with
    | some len => i :: phoneStartsGo fuel (cs.drop (len - 1)) (i + len)
    | none => phoneStartsGo fuel cs (i + 1)

/-- `re.finditer` over the phone pattern: all (absolute) match starts, each
search resuming directly after the previous non-overlapping match (a match
is at least as long as its label, so `cs.drop (len - 1)` is the text right
after the match). -/
def phoneStarts (u : Str) (i : Nat) : List Nat := phoneStartsGo u.length u i

/-- Whether `\s*[:：]?.*$` (no MULTILINE, `$` also matching before a final
newline) can take the remainder `s` to the end: after discarding an optional
final newline, everything beyond the leading whitespace must be
newline-free (the optional colon never changes satisfiability). -/
def dollarOk (s : Str) : Bool :=
  let s1 := if s.getLast? = some '\n' then s.dropLast else s
  !((s1.dropWhile ws).contains '\n')

/-- `re.search(pattern + r'.*$', before_split)` of the phone heuristic for one
marker literal: the first occurrence from which the rest of the slice is
reachable by `.*$`. -/
def searchMarkerDollar (lit : Str) (u : Str) : Option Nat :=
  firstPosSuch (fun v => lit.isPrefixOf v && dollarOk (v.drop lit.length)) u

/-- The backward marker adjustment of the phone heuristic: the recipient
marker patterns are tried in order, the first that matches in the prefix
before the second phone wins. -/
def adjustSplit (before : Str) : Option Nat :=
  match searchMarkerDollar "ผู้รับ".data before with
  | some i => some i
  | none =>
    match searchMarkerDollar "recipient".data before with
    | some i => some i
    | none => searchMarkerDollar "to".data before

/-- Python `text.split('\n')`. -/
def splitNl : Str → List Str
  | [] => [[]]
  | c :: cs =>
    if c = '\n' then [] :: splitNl cs
    else
      match splitNl cs with
      | [] => [[c]]
      | h :: rest => (c :: h) :: rest

/-- Python `'\n'.join(lines)`. -/
def joinNl : List Str → Str
  | [] => []
  | [x] => x
  | x :: xs => x ++ ('\n' :: joinNl xs)

/-- `CompleteParcelSortingSystem.smart_split_sender_recipient` (process.py):
method 1 splits at the earliest sender/recipient markers, method 2 splits at
the second phone number (adjusted back to a recipient marker), method 3
halves the lines. -/
def smart_split_sender_recipient (t : Str) : Str × Str :=
  let tl := lowerStr t
  match firstOcc sender_markers tl, firstOcc recipient_markers tl with
  | some s, some r =>
    if s < r then (pyStrip ((t.drop s).take (r - s)), pyStrip (t.drop r))
    else (pyStrip (t.drop s), pyStrip ((t.drop r).take (s - r)))
  | _, _ =>
    let phones := phoneStarts tl 0
    if 2 ≤ phones.length then
      let sp0 := (phones[1]?).getD 0
      let sp :=
        match adjustSplit (tl.take sp0) with
        | some i => i
        | none => sp0
      (pyStrip (t.take sp), pyStrip (t.drop sp))
    else
      let lines := splitNl t
      let mid := lines.length / 2
      (joinNl (lines.take mid), joinNl (lines.drop mid))

/-- The character class `[:\s]` used between labels and their values. -/
def isColonWs (c : Char) : Bool := c = ':' || ws c

/-- The complement of `[^\n\r]`. -/
def notNlCr (c : Char) : Bool := !(c = '\n' || c = '\r')

/-- Case-insensitive literal-prefix test (`re.IGNORECASE` for ASCII). -/
def prefixCI (lit u : Str) : Bool := lit.isPrefixOf (lowerStr u)

/-- `\w` of Python `re` for the character repertoire of the labels
(ASCII alphanumerics, underscore, and the alphanumeric part of the Thai
block; combining vowel/tone marks are not word characters). -/
def isWordPy (c : Char) : Bool :=
  ('a' ≤ c && c ≤ 'z') || ('A' ≤ c && c ≤ 'Z') || ('0' ≤ c && c ≤ '9') || c = '_' ||
  (0x0E01 ≤ c.val && c.val ≤ 0x0E30) || c.val = 0x0E32 || c.val = 0x0E33 ||
  (0x0E40 ≤ c.val && c.val ≤ 0x0E46) || (0x0E50 ≤ c.val && c.val ≤ 0x0E59)

/-- `[A-Z0-9]` under `re.IGNORECASE`. -/
def isAlnumAscii (c : Char) : Bool :=
  ('a' ≤ c && c ≤ 'z') || ('A' ≤ c && c ≤ 'Z') || ('0' ≤ c && c ≤ '9')

/-- `[A-Z]` under `re.IGNORECASE`. -/
def isAlphaAscii (c : Char) : Bool :=
  ('a' ≤ c && c ≤ 'z') || ('A' ≤ c && c ≤ 'Z')

/-- First result of `f` over a list, modelling ordered alternation. -/
def firstSomeList {α β : Type} (f : α → Option β) : List α → Option β
  | [] => none
  | a :: as =>
    match f a with
    | some b => some b
    | none => firstSomeList f as

/-- Backtracking of a greedy `X*` (`X` given by `cls`) followed by the
continuation `cont`: the maximal run is handed back one character at a
time, exactly as the `re` engine does. -/
def tryStarAux {β : Type} (cont : Str → Option β) (v : Str) : Nat → Option β
  | 0 => cont v
  | k + 1 =>
    match cont (v.drop (k + 1)) with
    | some b => some b
    | none => tryStarAux cont v k

/-- Greedy `cls*` then `cont`. -/
def starThen {β : Type} (cls : Char → Bool) (cont : Str → Option β) (v : Str) : Option β :=
  tryStarAux cont v ((v.takeWhile cls).length)

/-- A lazy group `([^\n\r]+?)` followed by the lookahead `look`: the minimal
non-empty newline-free prefix after which `look` holds, if the group is not
blocked by a newline first. Returns the group length. -/
def lazyGroup (look : Str → Bool) : Str → Option Nat
  | [] => none
  | c :: cs =>
    if c = '\n' || c = '\r' then none
    else if look cs then some 1
    else (lazyGroup look cs).map (· + 1)

/-- `re.search` for `(?:lit₁|lit₂|…)(between)*([^\n\r]+?)(?=look)`: scan the
start position left to right; at a matching label, backtrack the greedy
`between*` from its maximal run and take the lazy group. -/
def searchLabelLazy (lits : List Str) (between : Char → Bool) (look : Str → Bool) :
    Str → Option Str
  | [] => none
  | c :: cs =>
    match lits.find? (fun l => prefixCI l (c :: cs)) with
    | some l =>
      let after := (c :: cs).drop l.length
      match starThen between (fun v => (lazyGroup look v).map (fun e => v.take e)) after with
      | some g => some g
      | none => searchLabelLazy lits between look cs
    | none => searchLabelLazy lits between look cs

/-- `re.search` for `(?:lit₁|lit₂|…)(between)*((cls){min,})`: greedy group of
at least `min` characters of `cls`. -/
def searchLabelGreedy (lits : List Str) (between : Char → Bool) (cls : Char → Bool)
    (min : Nat) : Str → Option Str
  | [] => none
  | c :: cs =>
    match lits.find? (fun l => prefixCI l (c :: cs)) with
    | some l =>
      let after := (c :: cs).drop l.length
      match starThen between (fun v =>
          let g := v.takeWhile cls
          if min ≤ g.length then some g else none) after with
      | some g => some g
      | none => searchLabelGreedy lits between cls min cs
    | none => searchLabelGreedy lits between cls min cs

/-- Scanning loop of `subLabelColonWs`; every step consumes at least one
character, so the character count is enough fuel for structural recursion. -/
def subLabelGo : Nat → List Str → Str → Str
  | 0, _, s => s
  | _ + 1, _, [] => []
  | fuel + 1, lits, c :: cs =>
    match lits.find? (fun l => prefixCI l (c :: cs)) with
    | some l => subLabelGo fuel lits ((cs.drop (l.length - 1)).dropWhile isColonWs)
    | none => c :: subLabelGo fuel lits cs

/-- `re.sub(r'(?:lit₁|lit₂)[:\s]*', '', s)`: every non-overlapping label
occurrence together with its greedy `[:\s]*` tail is removed. -/
def subLabelColonWs (lits : List Str) (s : Str) : Str := subLabelGo s.length lits s

/-- The lookahead `(?=\n|ที่อยู่|address|โทร|tel|$)` of the first name pattern
(`$` is MULTILINE there, so it adds only the end-of-string position). -/
def nameLook (v : Str) : Bool :=
  match v with
  | [] => true
  | c :: _ =>
    c = '\n' || prefixCI "ที่อยู่".data v || prefixCI "address".data v ||
      prefixCI "โทร".data v || prefixCI "tel".data v

/-- `re.search(r'^([^\n\r]+?)(?=\n)', text, MULTILINE)` after the first
line start, i.e. the scan for positions that directly follow a newline. -/
def searchFirstLineAfterNl : Str → Option Str
  | [] => none
  | c :: cs =>
    if c = '\n' then
      match lazyGroup (fun v => v.head? == some '\n') cs with
      | some e => some (cs.take e)
      | none => searchFirstLineAfterNl cs
    else searchFirstLineAfterNl cs

/-- The second name pattern `^([^\n\r]+?)(?=\n)` (MULTILINE): position 0 or
any position after a newline. -/
def searchFirstLine (t : Str) : Option Str :=
  match lazyGroup (fun v => v.head? == some '\n') t with
  | some e => some (t.take e)
  | none => searchFirstLineAfterNl t

/-- The name labels `(?:ชื่อ|name)`. -/
def nameLits : List Str := ["ชื่อ".data, "name".data]

/-- The name step of `_extract_person_info`: first pattern with label, second
pattern taking the first newline-terminated line; the cleaned candidate is
kept only when longer than two characters. -/
def extractName (t : Str) : Str :=
  let clean := fun (g : Str) => subLabelColonWs nameLits (pyStrip g)
  let try2 :=
    match searchFirstLine t with
    | some g => let n := clean g; if 2 < n.length then n else []
    | none => []
  match searchLabelLazy nameLits isColonWs nameLook t with
  | some g => let n := clean g; if 2 < n.length then n else try2
  | none => try2

/-- Three-digit/four-digit grabs for the numeric phone patterns. -/
def grabDigits (n : Nat) (v : Str) : Option (Str × Str) :=
  let g := v.take n
  if g.length = n && g.all isDigitPy then some (g, v.drop n) else none

/-- The optional separator `[\s\-]?`, greedy: taking the separator is tried
before skipping it. -/
def sepChoices (v : Str) : List (Str × Str) :=
  match v with
  | c :: cs => if ws c || c = '-' then [([c], cs), ([], v)] else [([], v)]
  | [] => [([], [])]

/-- `\b` after the match: next character is absent or not a word character. -/
def boundaryAfter (v : Str) : Bool :=
  match v.head? with
  | none => true
  | some c => !isWordPy c

/-- Group 1 of `0\d{2}[\s\-]?\d{3}[\s\-]?\d{4}\b` (with `zero = true`) or
`\d{3}[\s\-]?\d{3}[\s\-]?\d{4}\b` (with `zero = false`) at the head of `v`. -/
def pat23At (zero : Bool) (v : Str) : Option Str :=
  match grabDigits 3 v with
  | none => none
  | some (g1, r1) =>
    if zero && !(g1.head? == some '0') then none
    else
      firstSomeList (fun s1 =>
        match grabDigits 3 s1.2 with
        | none => none
        | some (g2, r2) =>
          firstSomeList (fun s2 =>
            match grabDigits 4 s2.2 with
            | none => none
            | some (g3, r3) =>
              if boundaryAfter r3 then some (g1 ++ s1.1 ++ g2 ++ s2.1 ++ g3) else none)
            (sepChoices r2)) (sepChoices r1)

/-- `re.search` of the numeric phone patterns: scan for a position with a
word boundary in front (tracked via the previous character). -/
def searchPat23 (zero : Bool) (prev : Option Char) : Str → Option Str
  | [] => none
  | c :: cs =>
    if (match prev with | none => true | some pc => !isWordPy pc) && isWordPy c then
      match pat23At zero (c :: cs) with
      | some g => some g
      | none => searchPat23 zero (some c) cs
    else searchPat23 zero (some c) cs

/-- The phone step of `_extract_person_info`: labelled pattern first, then the
two numeric patterns; a candidate is kept only when its digits-only form has
at least nine digits, otherwise the next pattern is tried. -/
def extractPhone (t : Str) : Str :=
  let digitsOf := fun (g : Str) => (pyStrip g).filter isDigitPy
  let try3 :=
    match searchPat23 false none t with
    | some g => let p := digitsOf g; if 9 ≤ p.length then p else []
    | none => []
  let try2 :=
    match searchPat23 true none t with
    | some g => let p := digitsOf g; if 9 ≤ p.length then p else try3
    | none => try3
  match searchLabelGreedy phoneLits isColonWs isPhoneClass 9 t with
  | some g => let p := digitsOf g; if 9 ≤ p.length then p else try2
  | none => try2

/-- The lookahead `(?=\n(?:โทร|tel)|$)` of the first address pattern
(`$` without MULTILINE: end of string or before a single final newline). -/
def addrLook (v : Str) : Bool :=
  (match v with
   | '\n' :: rest => prefixCI "โทร".data rest || prefixCI "tel".data rest
   | _ => false) ||
  v.isEmpty || v == ['\n']

/-- The address labels `(?:ที่อยู่|address)`. -/
def addrLits : List Str := ["ที่อยู่".data, "address".data]

/-- The province-prefix literals `(?:จ\.|จังหวัด)`. -/
def joLits : List Str := ["จ.".data, "จังหวัด".data]

/-- The address step of `_extract_person_info`: labelled pattern first, then
`(?:จ\.|จังหวัด)[\s]*([^\n\r]+)`. -/
def extractAddress (t : Str) : Str :=
  let clean := fun (g : Str) => subLabelColonWs addrLits (pyStrip g)
  let try2 :=
    match searchLabelGreedy joLits ws notNlCr 1 t with
    | some g => let a := clean g; if a.isEmpty then [] else a
    | none => []
  match searchLabelLazy addrLits isColonWs addrLook t with
  | some g => let a := clean g; if a.isEmpty then try2 else a
  | none => try2

/-- The recipient-only third layer `(?:จ\.|จังหวัด)\s*([^\s\d,]+)` of the
province resolution in `_extract_person_info`. -/
def provinceLayer3Pattern (t : Str) : Str :=
  match searchLabelGreedy joLits ws (fun c => notWsDigit c && !(c = ',')) 1 t with
  | some g =>
    match extract_province_from_text (pyStrip g) with
    | some p => p
    | none => []
  | none => []

/-- The three-layer province resolution applied to the recipient half. -/
def recipientProvince (address t : Str) : Str :=
  let p1 := if address.isEmpty then [] else (extract_province_from_text address).getD []
  let p2 := if p1.isEmpty then (extract_province_from_text t).getD [] else p1
  if p2.isEmpty then provinceLayer3Pattern t else p2

/-- The sender-side province resolution (address only). -/
def senderProvince (address : Str) : Str :=
  if address.isEmpty then [] else (extract_province_from_text address).getD []

/-- The person record built by `_extract_person_info`. -/
structure PersonInfo where
  name : Str
  phone : Str
  address : Str
  province : Str
deriving DecidableEq, Repr

/-- `CompleteParcelSortingSystem._extract_person_info` (process.py): name,
phone, address and (for the recipient) province extracted per half. -/
def extract_person_info (t : Str) (is_recipient : Bool) : PersonInfo :=
  let address := extractAddress t
  { name := extractName t
    phone := extractPhone t
    address := address
    province := if is_recipient then recipientProvince address t else senderProvince address }

/-- The character class `[_\s]`. -/
def isWsUnderscore (c : Char) : Bool := ws c || c = '_'

/-- `re.search(r'tracking[_\s]*(?:number)?[:\s]*([A-Z0-9]+)', text, IGNORECASE)`. -/
def searchTracking1 : Str → Option Str
  | [] => none
  | c :: cs =>
    if prefixCI "tracking".data (c :: cs) then
      match starThen isWsUnderscore (fun a1 =>
          firstSomeList (fun a2 =>
              starThen isColonWs (fun a3 =>
                  let g := a3.takeWhile isAlnumAscii
                  if g.isEmpty then none else some g) a2)
            (if prefixCI "number".data a1 then [a1.drop 6, a1] else [a1]))
        ((c :: cs).drop 8) with
      | some g => some g
      | none => searchTracking1 cs
    else searchTracking1 cs

/-- `re.search(r'เลข(?:พัสดุ|ติดตาม)?[:\s]*([A-Z0-9]+)', text, IGNORECASE)`. -/
def searchTracking2 : Str → Option Str
  | [] => none
  | c :: cs =>
    if prefixCI "เลข".data (c :: cs) then
      let after := (c :: cs).drop 3
      match firstSomeList (fun a2 =>
          starThen isColonWs (fun a3 =>
              let g := a3.takeWhile isAlnumAscii
              if g.isEmpty then none else some g) a2)
          ((if prefixCI "พัสดุ".data after then [after.drop 5] else []) ++
           (if prefixCI "ติดตาม".data after then [after.drop 6] else []) ++ [after]) with
      | some g => some g
      | none => searchTracking2 cs
    else searchTracking2 cs

/-- `re.search(r'\b([A-Z]{2,}\d{8,})\b', text, IGNORECASE)`: the letter and
digit classes are disjoint, so only the maximal runs can match. -/
def searchTracking3 (prev : Option Char) : Str → Option Str
  | [] => none
  | c :: cs =>
    if (match prev with | none => true | some pc => !isWordPy pc) && isAlphaAscii c then
      let letters := (c :: cs).takeWhile isAlphaAscii
      let rest := (c :: cs).drop letters.length
      let digs := rest.takeWhile isDigitPy
      if 2 ≤ letters.length && 8 ≤ digs.length && boundaryAfter (rest.drop digs.length) then
        some (letters ++ digs)
      else searchTracking3 (some c) cs
    else searchTracking3 (some c) cs

/-- The tracking-number cascade of `extract_data_from_text`. -/
def extractTracking (t : Str) : Str :=
  match searchTracking1 t with
  | some g => pyStrip g
  | none =>
    match searchTracking2 t with
    | some g => pyStrip g
    | none =>
      match searchTracking3 none t with
      | some g => pyStrip g
      | none => []

/-- The all-empty person record that `extract_data_from_text` starts from. -/
def emptyPerson : PersonInfo := ⟨[], [], [], []⟩

/-- The record produced by `extract_data_from_text`. -/
structure ExtractedData where
  sender : PersonInfo
  recipient : PersonInfo
  tracking_number : Str
deriving DecidableEq, Repr

/-- `CompleteParcelSortingSystem.extract_data_from_text` (process.py): split
the raw text, extract each non-empty half, extract a tracking number. -/
def extract_data_from_text (t : Str) : ExtractedData :=
  let halves := smart_split_sender_recipient t
  { sender := if halves.1.isEmpty then emptyPerson else extract_person_info halves.1 false
    recipient := if halves.2.isEmpty then emptyPerson else extract_person_info halves.2 true
    tracking_number := extractTracking t }

/-!  Python values and dicts, for the JSON-shaped payloads.

Values are strings, dicts (association lists in insertion order) or `None`;
other JSON values (numbers, arrays, booleans) do not occur in the payload
positions the claims are about.  Where the source raises on a value of the
wrong type — `extract_province_from_text` calls `text.strip()`
(process.py:360), so a truthy non-string `province` or `address` value
raises `AttributeError` there, aborting the record via the handler at
process.py:969 — the model returns an explicit error value (`Except`).  -/

inductive PyVal where
  | str (s : Str)
  | dict (fields : List (Str × PyVal))
  | pynull

/-- Python dicts as insertion-ordered association lists. -/
abbrev Assoc := List (Str × PyVal)

/-- `d.get(key)` / `d[key]`. -/
def dget : Assoc → Str → Option PyVal
  | [], _ => none
  | (k, v) :: rest, key => if k = key then some v else dget rest key

/-- `d[key] = v`: overwrite in place, else append. -/
def dset : Assoc → Str → PyVal → Assoc
  | [], key, v => [(key, v)]
  | (k, w) :: rest, key, v =>
    if k = key then (k, v) :: rest else (k, w) :: dset rest key v

/-- Python truthiness of the modelled values. -/
def pyTruthy : PyVal → Bool
  | .str s => !s.isEmpty
  | .dict l => !l.isEmpty
  | .pynull => false

/-- Python `==` between an arbitrary value and a string: values of a
different type are never equal to a string. -/
def pyEqStr (v : PyVal) (s : Str) : Bool :=
  match v with
  | .str t => t = s
  | _ => false

/-- Python exceptions, separating `json.JSONDecodeError` (caught by the
inner handlers of `parse_ocr_result`) from everything else (for example the
`AttributeError` out of `text.strip()` at process.py:360; caught only by an
outer handler). -/
inductive PyErr where
  | jsonDecodeError
  | otherError
deriving DecidableEq, Repr

/-- The four-field dict built by `_extract_person_info`. -/
def personToPy (p : PersonInfo) : PyVal :=
  .dict [("name".data, .str p.name), ("phone".data, .str p.phone),
         ("address".data, .str p.address), ("province".data, .str p.province)]

/-- Case 3 of `normalize_ocr_json_result`: no (truthy) recipient — rebuild
both halves from the sender text when the sender is a string. -/
def normalizeCase3 (d : Assoc) (sender : PyVal) : Assoc :=
  match sender with
  | .str s =>
    let halves := smart_split_sender_recipient s
    dset (dset d "sender".data (personToPy (extract_person_info halves.1 false)))
      "recipient".data (personToPy (extract_person_info halves.2 true))
  | _ => d

/-- Cases 2 and 3 of `normalize_ocr_json_result`. -/
def normalizeCases23 (d : Assoc) (sender : PyVal) : Assoc :=
  match dget d "recipient".data with
  | some (.str r) => dset d "recipient".data (personToPy (extract_person_info r true))
  | some v => if pyTruthy v then d else normalizeCase3 d sender
  | none => normalizeCase3 d sender

/-- `CompleteParcelSortingSystem.normalize_ocr_json_result` (process.py):
repair of malformed OCR JSON.  Case 1: `sender` is a string longer than 100
characters — split it and rebuild both fields.  Case 2: `recipient` is a
string — rebuild it.  Case 3: `recipient` is missing or falsy — rebuild both
fields from a string-valued `sender`.  (The `isinstance(data, dict)` guard
is vacuous here because the model's payloads are dicts.) -/
def normalize_ocr_json_result (d : Assoc) : Assoc :=
  let sender := (dget d "sender".data).getD (.dict [])
  match sender with
  | .str s =>
    if 100 < s.length then
      let halves := smart_split_sender_recipient s
      dset (dset d "sender".data (personToPy (extract_person_info halves.1 false)))
        "recipient".data (personToPy (extract_person_info halves.2 true))
    else normalizeCases23 d sender
  | _ => normalizeCases23 d sender

/-- The sender half of `normalize_province_data` (process.py:546-554):
canonicalize a truthy `sender['province']` in place.  A truthy non-string
value is handed to `extract_province_from_text`, whose `text.strip()`
(process.py:360) raises — the error escapes to the caller.  (For a
string-valued province the truthiness guard is absorbed into
`extract_province_from_text`, which returns `none` on the empty string.) -/
def normSenderStep (d : Assoc) : Except PyErr Assoc :=
  match dget d "sender".data with
  | some (.dict s) =>
    match (dget s "province".data).getD (.str []) with
    | .str t =>
      match extract_province_from_text t with
      | some n => .ok (dset d "sender".data (.dict (dset s "province".data (.str n))))
      | none => .ok d
    | p => if pyTruthy p then .error .otherError else .ok d
  | _ => .ok d

/-- The address fallback of the recipient half of `normalize_province_data`
(process.py:568-585): a truthy non-string `address` likewise raises inside
`extract_province_from_text`. -/
def normRecipFromAddress (r : List (Str × PyVal)) : Except PyErr (List (Str × PyVal)) :=
  match (dget r "address".data).getD (.str []) with
  | .str t =>
    match extract_province_from_text t with
    | some n => .ok (dset r "province".data (.str n))
    | none => .ok r
  | a => if pyTruthy a then .error .otherError else .ok r

/-- The recipient half of `normalize_province_data` (process.py:557-585), as
a function of the recipient dict alone (the source reads and mutates only
that dict).  A truthy non-string `province` raises inside
`extract_province_from_text`; a falsy or unresolvable province falls back to
the address. -/
def normRecipValue (r : List (Str × PyVal)) : Except PyErr (List (Str × PyVal)) :=
  match (dget r "province".data).getD (.str []) with
  | .str t =>
    match extract_province_from_text t with
    | some n => .ok (dset r "province".data (.str n))
    | none => normRecipFromAddress r
  | p => if pyTruthy p then .error .otherError else normRecipFromAddress r

/-- `CompleteParcelSortingSystem.normalize_province_data` (process.py:538-586):
canonicalize the sender and recipient province fields (the recipient also
falls back to its address).  An empty payload is returned unchanged, which
the `if not data` guard of the source also does.  An exception raised on a
truthy non-string province or address value propagates to the caller
(`process_single_parcel` catches it at process.py:969 and fails the whole
record). -/
def normalize_province_data (d : Assoc) : Except PyErr Assoc :=
  match normSenderStep d with
  | .error e => .error e
  | .ok d1 =>
    match dget d1 "recipient".data with
    | some (.dict r) =>
      match normRecipValue r with
      | .error e => .error e
      | .ok r2 => .ok (dset d1 "recipient".data (.dict r2))
    | _ => .ok d1

/-- The destination-province computation of `process_single_parcel`
(process.py, step 5, lines 885-914), as a function of the recipient value
(`parcel_data.get('recipient', {})`): the source reads only recipient data
there.  The `province` variable holds whatever `recipient['province']`
holds: a truthy value other than the literal string 'ไม่ระบุ' is kept as-is
even when it is not a string (Python's `!=` between a dict and a string is
`True`).  A truthy non-string `address` reached by the fallback raises
inside `extract_province_from_text` and the error escapes to the handler at
process.py:969. -/
def provinceOfRecip (recip : PyVal) : Except PyErr PyVal :=
  match recip with
  | .dict r =>
    let p := (dget r "province".data).getD (.str [])
    if pyTruthy p && !pyEqStr p "ไม่ระบุ".data then .ok p
    else
      match (dget r "address".data).getD (.str []) with
      | .str t =>
        let p2 := match extract_province_from_text t with
                  | some f => PyVal.str f
                  | none => p
        .ok (if !pyTruthy p2 || pyEqStr p2 "ไม่ระบุ".data then .str "ไม่ระบุ".data else p2)
      | a =>
        if pyTruthy a then .error .otherError
        else .ok (if !pyTruthy p || pyEqStr p "ไม่ระบุ".data then .str "ไม่ระบุ".data else p)
  | _ => .ok (.str "ไม่ระบุ".data)

/-- Destination province of a payload (process_single_parcel step 5). -/
def provinceOf (d : Assoc) : Except PyErr PyVal :=
  provinceOfRecip ((dget d "recipient".data).getD (.dict []))

/-- `get_region` applied to the step-5 province value: a non-string value is
a member of no region's province list (`province in provinces` is `False`
for every region), so it maps to 'ไม่ระบุภาค'. -/
def get_region_val (v : PyVal) : Str :=
  match v with
  | .str s => get_region s
  | _ => "ไม่ระบุภาค".data

/-- The extraction-and-normalization pipeline of `process_single_parcel`
applied to an already-parsed payload: JSON-shape repair, then province
canonicalization, then the recipient-only destination computation.  An
error value models an exception reaching the handler at process.py:969: the
record fails with no resolved province. -/
def pipelineProvince (d : Assoc) : Except PyErr PyVal :=
  match normalize_province_data (normalize_ocr_json_result d) with
  | .error e => .error e
  | .ok d2 => provinceOf d2

/-- Region of the resolved destination (process_single_parcel step 6); an
error again models the aborted record. -/
def pipelineRegion (d : Assoc) : Except PyErr Str :=
  match pipelineProvince d with
  | .error e => .error e
  | .ok p => .ok (get_region_val p)

/-- Sender values whose province-canonicalization step cannot raise:
anything except a dict whose `province` entry is truthy and not a string.
(String-valued senders are excluded separately in the amended C3, because
the shape repair rebuilds the recipient from them.) -/
def senderProvinceSafe (v : PyVal) : Bool :=
  match v with
  | .dict s =>
    match (dget s "province".data).getD (.str []) with
    | .str _ => true
    | p => !pyTruthy p
  | _ => true

/-! `parse_ocr_result`, with `json.loads` abstracted as a fallible
collaborator: the decoder may return any value or raise. -/

/-- `re.sub(r'^lit\s*', '', t)`: anchored, so at most the leading occurrence
is removed. -/
def stripLead (lit : Str) (t : Str) : Str :=
  if lit.isPrefixOf t then (t.drop lit.length).dropWhile ws else t

/-- `re.sub(r'\s*```', '', t)`: a match needs the backticks directly after a
maximal whitespace run (the class `\s` cannot yield a backtick back). -/
def subWsBackticks : Nat → Str → Str
  | 0, s => s
  | _ + 1, [] => []
  | fuel + 1, c :: cs =>
    let w := (c :: cs).takeWhile ws
    let rest := (c :: cs).drop w.length
    if "```".data.isPrefixOf rest then subWsBackticks fuel (rest.drop 3)
    else c :: subWsBackticks fuel cs

/-- Characters allowed inside `[^{}]`. -/
def notBrace (c : Char) : Bool := !(c = '{' || c = '}')

/-- The tail `(?:\{[^{}]*\}[^{}]*)*\}` of the JSON-block pattern, returning
the number of characters it consumes; greedy repetition, with failure when a
nested block stays unclosed. -/
def braceTail : Nat → Str → Option Nat
  | 0, _ => none
  | fuel + 1, v =>
    match v with
    | '{' :: r1 =>
      let a := r1.takeWhile notBrace
      match r1.drop a.length with
      | '}' :: r3 =>
        let b := r3.takeWhile notBrace
        (braceTail fuel (r3.drop b.length)).map (fun n => 1 + a.length + 1 + b.length + n)
      | _ => none
    | '}' :: _ => some 1
    | _ => none

/-- `re.search(r'\{[^{}]*(?:\{[^{}]*\}[^{}]*)*\}', text, DOTALL)`: leftmost
match of the one-level-nested JSON block pattern. -/
def braceFind : Nat → Str → Option Str
  | 0, _ => none
  | _ + 1, [] => none
  | fuel + 1, c :: cs =>
    if c = '{' then
      let a := cs.takeWhile notBrace
      let r := cs.drop a.length
      match braceTail (r.length + 1) r with
      | some n => some (('{' :: a) ++ r.take n)
      | none => braceFind fuel cs
    else braceFind fuel cs

/-- The second decoding attempt of `parse_ocr_result`: the brace-block search
with its own `except json.JSONDecodeError: pass`. -/
def tryBraceDecode (loads : Str → Except PyErr PyVal) (s : Str) :
    Except PyErr (Option Assoc) :=
  match braceFind s.length s with
  | some m =>
    match loads m with
    | .ok (.dict d) => .ok (some d)
    | .ok _ => .ok none
    | .error .jsonDecodeError => .ok none
    | .error e => .error e
  | none => .ok none

/-- The body of `parse_ocr_result` before its outer exception handler:
markdown fences removed, then the two decoding attempts, each catching only
`json.JSONDecodeError`. -/
def parseInner (loads : Str → Except PyErr PyVal) (t : Str) :
    Except PyErr (Option Assoc) :=
  let s0 := pyStrip t
  let s1 := stripLead "```json".data s0
  let s2 := stripLead "```".data s1
  let s3 := subWsBackticks s2.length s2
  let s4 := pyStrip s3
  match loads s4 with
  | .ok (.dict d) => .ok (some d)
  | .ok _ => tryBraceDecode loads s4
  | .error .jsonDecodeError => tryBraceDecode loads s4
  | .error e => .error e

/-- `CompleteParcelSortingSystem.parse_ocr_result` (process.py), parameterized
by the behaviour of `json.loads`: the outer `except Exception` converts every
escaping error into a `None` result. -/
def parse_ocr_result (loads : Str → Except PyErr PyVal) (t : Str) :
    Except PyErr (Option Assoc) :=
  match parseInner loads t with
  | .ok v => .ok v
  | .error _ => .ok none

/-!  DobotController (dobot_controller.py).

The pydobot device is abstracted by an oracle `env : Nat → Bool` giving, for
each device call in issue order, whether that call raises.  Coordinates are
exact hundredths of the source's decimal literals (no claim computes with
them).  Each command wrapper (`move_to`, `suction_on`, `suction_off`) has its
own `try/except Exception` that swallows a device error after logging, so no
device exception ever escapes a wrapper; the `try/except` of
`pick_and_place` therefore has no device-exception path and the embedding of
its body is exception-free.  -/

/-- An (x, y, z, r) target, in hundredths. -/
structure Coord where
  x : Int
  y : Int
  z : Int
  r : Int
deriving DecidableEq, Repr

/-- `DobotController.HOME`. -/
def HOME : Coord := ⟨12592, 17782, 4211, 5470⟩

/-- `DobotController.PICKUP`. -/
def PICKUP : Coord := ⟨-851, 21585, -819, 9226⟩

/-- `DobotController.SAFETY_Z` (50.0). -/
def SAFETY_Z : Int := 5000

/-- `DobotController.DROP_POINTS`: the four configured drop points.  The
reserve label `จุดสำรอง` used by `pick_and_place` has no entry. -/
def DROP_POINTS : List (Str × Coord) :=
  [("นครนายก".data, ⟨23149, 25, -1838, 6⟩),
   ("นครสวรรค์".data, ⟨23260, 14008, -1986, 3106⟩),
   ("เชียงใหม่".data, ⟨23149, 25, -1838, 6⟩),
   ("สระบุรี".data, ⟨23260, 14008, -1986, 3106⟩)]

/-- `DROP_POINTS.get(province)`. -/
def dropPointLookup (province : Str) : Option Coord :=
  (DROP_POINTS.find? (fun e => e.1 = province)).map (fun e => e.2)

/-- Device operations that completed without raising. -/
inductive DeviceOp where
  | moveTo (c : Coord)
  | suck (enable : Bool)
deriving DecidableEq, Repr

/-- Controller state: connection flags, device-call counters, the log of
completed device operations, and the `stats` dict. -/
structure DobotState where
  simulation_mode : Bool
  dobotInit : Bool
  is_connected : Bool
  calls : Nat
  raised : Nat
  ops : List DeviceOp
  total_picks : Nat
  successful_drops : Nat
  failed_drops : Nat
  by_province : List (Str × Nat)
deriving DecidableEq, Repr

/-- One guarded device call: in simulation mode no device is touched;
otherwise the call either raises (swallowed and counted) or completes. -/
def deviceCall (env : Nat → Bool) (st : DobotState) (op : DeviceOp) : DobotState :=
  if st.simulation_mode then st
  else if st.dobotInit then
    if env st.calls then { st with calls := st.calls + 1, raised := st.raised + 1 }
    else { st with calls := st.calls + 1, ops := st.ops ++ [op] }
  else st

/-- `DobotController.move_to` (the wrapper, whose `try/except` swallows any
device error). -/
def move_to (env : Nat → Bool) (st : DobotState) (c : Coord) : DobotState :=
  deviceCall env st (.moveTo c)

/-- `DobotController.suction_on`. -/
def suction_on (env : Nat → Bool) (st : DobotState) : DobotState :=
  deviceCall env st (.suck true)

/-- `DobotController.suction_off`. -/
def suction_off (env : Nat → Bool) (st : DobotState) : DobotState :=
  deviceCall env st (.suck false)

/-- `DobotController.move_home`. -/
def move_home (env : Nat → Bool) (st : DobotState) : DobotState :=
  move_to env st HOME

/-- `DobotController.move_to_pickup`: approach at safety height, then
descend. -/
def move_to_pickup (env : Nat → Bool) (st : DobotState) : DobotState :=
  let st1 := move_to env st ⟨PICKUP.x, PICKUP.y, SAFETY_Z, PICKUP.r⟩
  move_to env st1 PICKUP

/-- `DobotController.move_to_drop`: `False` when the province has no drop
point, otherwise approach at safety height and descend. -/
def move_to_drop (env : Nat → Bool) (st : DobotState) (province : Str) :
    Bool × DobotState :=
  match dropPointLookup province with
  | none => (false, st)
  | some dp =>
    let st1 := move_to env st ⟨dp.x, dp.y, SAFETY_Z, dp.r⟩
    let st2 := move_to env st1 dp
    (true, st2)

/-- Bump of `stats['by_province']`. -/
def bumpProvince (l : List (Str × Nat)) (p : Str) : List (Str × Nat) :=
  match l with
  | [] => [(p, 1)]
  | (k, n) :: rest => if k = p then (k, n + 1) :: rest else (k, n) :: bumpProvince rest p

/-- `DobotController.pick_and_place` (dobot_controller.py): pick, lift,
fall back to the reserve label `จุดสำรอง` for an unconfigured province, drop,
lift, update stats.  When `move_to_drop` fails the failure counter is
incremented and `False` returned.  The surrounding `except Exception`
handler of the source is unreachable for device errors because every
command wrapper catches its own exceptions. -/
def pick_and_place (env : Nat → Bool) (st : DobotState) (province : Str) :
    Bool × DobotState :=
  if !st.is_connected then (false, st)
  else
    let st1 := move_to_pickup env st
    let st2 := suction_on env st1
    let st3 := move_to env st2 ⟨PICKUP.x, PICKUP.y, SAFETY_Z, PICKUP.r⟩
    let target := if (dropPointLookup province).isSome then province else "จุดสำรอง".data
    match move_to_drop env st3 target with
    | (false, st4) => (false, { st4 with failed_drops := st4.failed_drops + 1 })
    | (true, st4) =>
      let st5 := suction_off env st4
      let dp := (dropPointLookup target).getD ⟨0, 0, 0, 0⟩
      let st6 := move_to env st5 ⟨dp.x, dp.y, SAFETY_Z, dp.r⟩
      (true, { st6 with
                total_picks := st6.total_picks + 1
                successful_drops := st6.successful_drops + 1
                by_province := bumpProvince st6.by_province target })

/-- A freshly connected controller on real hardware (`connect` succeeded,
`simulation_mode=False`). -/
def connectedController : DobotState :=
  { simulation_mode := false, dobotInit := true, is_connected := true,
    calls := 0, raised := 0, ops := [],
    total_picks := 0, successful_drops := 0, failed_drops := 0, by_province := [] }

/-- The no-failure device oracle. -/
def envOk : Nat → Bool := fun _ => false

/-- A device oracle whose very first call raises. -/
def envFirstRaises : Nat → Bool := fun i => i = 0

/-!  CompleteSortingPipeline.ocr_worker (main.py), per-item step.

One loop iteration that dequeued an OCR result: statistics are updated and
the item is forwarded to the Dobot queue exactly under the source's guard
`if self.enable_dobot and province and province != 'ไม่ระบุ'`. -/

/-- The fields of `process_single_parcel`'s result that `ocr_worker` reads:
`result['success']`, `result.get('province')`, `result.get('tracking_number')`
and `result.get('db_saved')`. -/
structure OcrOutcome where
  success : Bool
  province : Option Str
  tracking : Option Str
  db_saved : Bool
deriving DecidableEq, Repr

/-- An entry of the Dobot queue (`image_path` and the full result are also
carried along in the source; the outcome field plays that role here). -/
structure DobotQueueItem where
  province : Str
  tracking : Option Str
  res : OcrOutcome
deriving DecidableEq, Repr

/-- The `self.stats` counters that `ocr_worker` touches. -/
structure OcrWorkerStats where
  ocr_processed : Nat
  ocr_success : Nat
  ocr_failed : Nat
  db_saved : Nat
deriving DecidableEq, Repr

/-- One dequeue-and-process iteration of `ocr_worker` (main.py): counters
first, then — only for a successful result with a truthy province different
from the sentinel, and with the Dobot stage enabled — the enqueue. -/
def ocrWorkerStep (enableDobot : Bool) (st : OcrWorkerStats × List DobotQueueItem)
    (res : OcrOutcome) : OcrWorkerStats × List DobotQueueItem :=
  let s1 := { st.1 with ocr_processed := st.1.ocr_processed + 1 }
  if res.success then
    let s2 := { s1 with ocr_success := s1.ocr_success + 1 }
    let s3 := if res.db_saved then { s2 with db_saved := s2.db_saved + 1 } else s2
    match res.province with
    | some p =>
      if enableDobot && !p.isEmpty && !(p = "ไม่ระบุ".data) then
        (s3, st.2 ++ [⟨p, res.tracking, res⟩])
      else (s3, st.2)
    | none => (s3, st.2)
  else ({ s1 with ocr_failed := s1.ocr_failed + 1 }, st.2)

/-!  CompleteSortingPipeline.shutdown (main.py) as a transition system.

State of one worker/queue pair (the OCR queue; the Dobot pair is
symmetric): the shared `is_running` flag, the queue contents, the queue's
`unfinished_tasks` count (incremented by `put`, decremented by
`task_done`), whether the worker thread is still inside its loop, and the
program counter of `shutdown`:
0 = not called, 1 = blocked in `ocr_queue.join()`,
2 = joining threads, 3 = returned. -/

structure PipeState where
  running : Bool
  shutdownPC : Nat
  ocrQueue : List Nat
  unfinished : Nat
  workerAlive : Bool
deriving DecidableEq, Repr

/-- Interleaved small steps of the monitor, the OCR worker and `shutdown`:
* `enqueue`: the monitor publishes a new image before shutdown begins;
* `workerExit`: the worker reads `is_running == False` at the top of its
  loop and leaves the loop;
* `workerProcess`: the worker reads `is_running == True`, dequeues the head
  item, processes it and calls `task_done`;
* `shutdownSignal`: `shutdown` sets `is_running = False`;
* `shutdownJoin`: `ocr_queue.join()` returns, which requires
  `unfinished_tasks == 0`;
* `shutdownThreads`: the bounded-timeout thread joins and the rest of
  `shutdown` complete. -/
inductive PipeStep : PipeState → PipeState → Prop where
  | enqueue (s : PipeState) (item : Nat) (h : s.shutdownPC = 0) (hr : s.running = true) :
      PipeStep s { s with ocrQueue := s.ocrQueue ++ [item], unfinished := s.unfinished + 1 }
  | workerExit (s : PipeState) (h1 : s.workerAlive = true) (h2 : s.running = false) :
      PipeStep s { s with workerAlive := false }
  | workerProcess (s : PipeState) (item : Nat) (rest : List Nat)
      (h1 : s.workerAlive = true) (h2 : s.running = true) (h3 : s.ocrQueue = item :: rest) :
      PipeStep s { s with ocrQueue := rest, unfinished := s.unfinished - 1 }
  | shutdownSignal (s : PipeState) (h : s.shutdownPC = 0) :
      PipeStep s { s with running := false, shutdownPC := 1 }
  | shutdownJoin (s : PipeState) (h1 : s.shutdownPC = 1) (h2 : s.unfinished = 0) :
      PipeStep s { s with shutdownPC := 2 }
  | shutdownThreads (s : PipeState) (h : s.shutdownPC = 2) :
      PipeStep s { s with shutdownPC := 3 }

/-- Reachability. -/
def PipeReach : PipeState → PipeState → Prop := Relation.ReflTransGen PipeStep

/-- The idle initial state: pipeline running, queue empty, worker alive. -/
def pipeInit : PipeState :=
  { running := true, shutdownPC := 0, ocrQueue := [], unfinished := 0, workerAlive := true }

/-- The state after: one enqueue, then `shutdown` flips the flag, then the
worker exits its loop — queue still holding the unprocessed item. -/
def pipeStuck : PipeState :=
  { running := false, shutdownPC := 1, ocrQueue := [7], unfinished := 1, workerAlive := false }

/-- The degradation contract of a person record: the phone is absent or a
digits-only string of length at least nine; the province is absent or
canonical. -/
def degradedPerson (i : PersonInfo) : Prop :=
  (i.phone = [] ∨ (9 ≤ i.phone.length ∧ i.phone.all isDigitPy = true)) ∧
  (i.province = [] ∨ i.province ∈ all_provinces)

/-- Removal of every (non-overlapping, left-to-right) occurrence of a marker
literal; the character count is enough fuel. -/
def eraseLitGo : Nat → Str → Str → Str
  | 0, _, s => s
  | _ + 1, _, [] => []
  | fuel + 1, lit, c :: cs =>
    if lit.isPrefixOf (c :: cs) then eraseLitGo fuel lit ((c :: cs).drop lit.length)
    else c :: eraseLitGo fuel lit cs

/-- All six marker literals of the splitter. -/
def allMarkers : List Str := sender_markers ++ recipient_markers

/-- The claimed notion of content "modulo the marker substrings themselves":
the text with every marker occurrence erased and whitespace discarded. -/
def contentModMarkers (t : Str) : Str :=
  removeWs (allMarkers.foldl (fun acc lit => eraseLitGo acc.length lit acc) t)

/-- The input refuting the reconstruction part of the splitter claim: plain
content (`X`) before the earliest marker is dropped by the split. -/
def splitterCounterexampleText : Str := "Xsender: A recipient: B".data

/-- Effect of `normalize_ocr_json_result` on the recipient value when the
sender value is not a string (cases 1 and 3 are then inert). -/
def recipRepairStep (rv : Option PyVal) : Option PyVal :=
  match rv with
  | some (.str r) => some (personToPy (extract_person_info r true))
  | other => other

/-- Effect of `normalize_province_data` on the recipient value, once the
sender step has succeeded. -/
def recipNormalizeStep (rv : Option PyVal) : Except PyErr (Option PyVal) :=
  match rv with
  | some (.dict r) =>
    match normRecipValue r with
    | .error e => .error e
    | .ok r2 => .ok (some (.dict r2))
  | other => .ok other

/-- The pipeline's destination province as a function of the original
recipient value alone. -/
def pipelineFromRecipOnly (rv : Option PyVal) : Except PyErr PyVal :=
  match recipNormalizeStep (recipRepairStep rv) with
  | .error e => .error e
  | .ok rv2 => provinceOfRecip (rv2.getD (.dict []))

/-- The first counterexample payload: only a short string-valued `sender`
(recipient absent), naming เชียงใหม่ in its recipient section. -/
def c3Payload : Assoc := [("sender".data, .str "ผู้ส่ง ก ผู้รับ จ.เชียงใหม่".data)]

/-- The replacement sender value, naming ภูเก็ต instead. -/
def c3SenderB : PyVal := .str "ผู้ส่ง ก ผู้รับ จ.ภูเก็ต".data

/-- A well-formed recipient payload used by the crash-divergence half of the
C3 counterexample. -/
def c3Recip : Assoc :=
  [("recipient".data, .dict [("province".data, .str "ลพบุรี".data)])]

/-- A non-string sender whose truthy non-string `province` entry makes the
canonicalization step raise. -/
def c3CrashSender : PyVal :=
  .dict [("province".data, .dict [("x".data, .str "y".data)])]

/-- Decidable projection of a pipeline outcome: the resolved province when
the run succeeded with a string-valued province, `none` otherwise. -/
def provinceValStr (x : Except PyErr PyVal) : Option Str :=
  match x with
  | .ok (.str s) => some s
  | _ => none

/-- Decidable projection of a region outcome. -/
def regionValStr (x : Except PyErr Str) : Option Str :=
  match x with
  | .ok s => some s
  | _ => none

/-- Decidable error test on a pipeline outcome. -/
def isPipeErr (x : Except PyErr PyVal) : Bool :=
  match x with
  | .error _ => true
  | .ok _ => false

/-!  Association-list (dict) lemmas. -/

theorem dget_dset_self (d : Assoc) (k : Str) (v : PyVal) :
    dget (dset d k v) k = some v := by
  induction d with
  | nil => simp [dget, dset]
  | cons e rest ih =>
    by_cases h : e.1 = k
    · simp [dget, dset, h]
    · simp [dget, dset, h, ih]

theorem dget_dset_ne (d : Assoc) (k k' : Str) (v : PyVal) (h : k' ≠ k) :
    dget (dset d k v) k' = dget d k' :=  by
  induction d with
  | nil =>
    have : ¬(k = k') := fun hh => h hh.symm
    simp [dget, dset, this]
  | cons e rest ih =>
    by_cases he : e.1 = k
    · simp only [dset, he, if_pos rfl, dget]
      have : ¬(k = k') := fun hh => h hh.symm
      simp [this]
    · simp only [dset, he, if_neg he, dget]
      by_cases he' : e.1 = k'
      · simp [he']
      · simp [he', ih]

/-- The two relevant keys differ. -/
theorem sender_ne_recipient : "sender".data ≠ "recipient".data := by decide

/-! C9 groundwork: the repair leaves object-shaped records untouched. -/

theorem normalize_noop (d : Assoc) (s r : List (Str × PyVal))
    (hs : dget d "sender".data = some (.dict s))
    (hr : dget d "recipient".data = some (.dict r)) :
    normalize_ocr_json_result d = d := by
  simp only [normalize_ocr_json_result, hs, Option.getD_some]
  simp only [normalizeCases23, hr]
  cases r with
  | nil => simp [pyTruthy, normalizeCase3]
  | cons x xs => simp [pyTruthy, normalizeCase3]

/-! Province-membership lemmas: every province the resolver returns is one
of the 77 canonical names. -/

theorem candLookup_mem {c p : Str} (h : candLookup c = some p) : p ∈ all_provinces :=
  List.mem_of_find?_eq_some h

theorem layer1Changwat_mem {t p : Str} (h : layer1Changwat t = some p) :
    p ∈ all_provinces := by
  unfold layer1Changwat at h
  cases hf : findCand "จังหวัด".data notWsDigit t with
  | none => simp [hf] at h
  | some cand =>
    rw [hf] at h
    exact candLookup_mem h

theorem layer1_mem {t p : Str} (h : layer1 t = some p) : p ∈ all_provinces := by
  unfold layer1 at h
  cases hf : findCand "จ.".data notWsDigit t with
  | none =>
    rw [hf] at h
    exact layer1Changwat_mem h
  | some cand =>
    simp only [hf] at h
    cases hc : candLookup (pyStrip cand) with
    | none =>
      simp only [hc] at h
      exact layer1Changwat_mem h
    | some q =>
      simp only [hc] at h
      cases h
      exact candLookup_mem hc

theorem layer2_mem {t p : Str} (h : layer2 t = some p) : p ∈ all_provinces :=
  List.mem_of_find?_eq_some h

theorem layer3_mem {t p : Str} (h : layer3 t = some p) : p ∈ all_provinces :=
  List.mem_of_find?_eq_some h

theorem extract_province_mem {t p : Str} (h : extract_province_from_text t = some p) :
    p ∈ all_provinces := by
  unfold extract_province_from_text at h
  by_cases he : t.isEmpty
  · simp [he] at h
  · simp only [he, Bool.false_eq_true, if_false] at h
    cases h1 : layer1 (pyStrip t) with
    | some q => rw [h1] at h; cases h; exact layer1_mem h1
    | none =>
      rw [h1] at h
      cases h2 : layer2 (pyStrip t) with
      | some q => rw [h2] at h; cases h; exact layer2_mem h2
      | none => rw [h2] at h; exact layer3_mem h

/-! Shape of the degraded person fields (claim C7 groundwork). -/

theorem filter_all_self (q : Char → Bool) (l : Str) : (l.filter q).all q = true := by
  simp only [List.all_eq_true, List.mem_filter]
  exact fun x hx => hx.2

/-- Every failure of a phone pattern degrades to the fallback. -/
theorem phone_digits_shape (g fb : Str)
    (ih : fb = [] ∨ (9 ≤ fb.length ∧ fb.all isDigitPy = true)) :
    (if 9 ≤ ((pyStrip g).filter isDigitPy).length
     then (pyStrip g).filter isDigitPy else fb) = [] ∨
    (9 ≤ (if 9 ≤ ((pyStrip g).filter isDigitPy).length
          then (pyStrip g).filter isDigitPy else fb).length ∧
     (if 9 ≤ ((pyStrip g).filter isDigitPy).length
      then (pyStrip g).filter isDigitPy else fb).all isDigitPy = true) := by
  by_cases h : 9 ≤ ((pyStrip g).filter isDigitPy).length
  · simp only [if_pos h]
    exact Or.inr ⟨h, filter_all_self isDigitPy (pyStrip g)⟩
  · simp only [if_neg h]
    exact ih

theorem extractPhone_shape (t : Str) :
    extractPhone t = [] ∨
    (9 ≤ (extractPhone t).length ∧ (extractPhone t).all isDigitPy = true) := by
  unfold extractPhone
  cases h3 : searchPat23 false none t with
  | none =>
    cases h2 : searchPat23 true none t with
    | none =>
      cases h1 : searchLabelGreedy phoneLits isColonWs isPhoneClass 9 t with
      | none => simp [h1, h2, h3]
      | some g => simpa [h1, h2, h3] using phone_digits_shape g [] (Or.inl rfl)
    | some g2 =>
      cases h1 : searchLabelGreedy phoneLits isColonWs isPhoneClass 9 t with
      | none => simpa [h1, h2, h3] using phone_digits_shape g2 [] (Or.inl rfl)
      | some g =>
        simpa [h1, h2, h3] using
          phone_digits_shape g _ (phone_digits_shape g2 [] (Or.inl rfl))
  | some g3 =>
    cases h2 : searchPat23 true none t with
    | none =>
      cases h1 : searchLabelGreedy phoneLits isColonWs isPhoneClass 9 t with
      | none => simpa [h1, h2, h3] using phone_digits_shape g3 [] (Or.inl rfl)
      | some g =>
        simpa [h1, h2, h3] using
          phone_digits_shape g _ (phone_digits_shape g3 [] (Or.inl rfl))
    | some g2 =>
      cases h1 : searchLabelGreedy phoneLits isColonWs isPhoneClass 9 t with
      | none => simpa [h1, h2, h3] using phone_digits_shape g2 _ (phone_digits_shape g3 [] (Or.inl rfl))
      | some g =>
        simpa [h1, h2, h3] using
          phone_digits_shape g _ (phone_digits_shape g2 _ (phone_digits_shape g3 [] (Or.inl rfl)))

theorem senderProvince_shape (a : Str) :
    senderProvince a = [] ∨ senderProvince a ∈ all_provinces := by
  unfold senderProvince
  by_cases ha : a.isEmpty
  · simp [ha]
  · simp only [ha, Bool.false_eq_true, if_false]
    cases h : extract_province_from_text a with
    | none => simp
    | some p => simpa using Or.inr (extract_province_mem h)

theorem provinceLayer3Pattern_shape (t : Str) :
    provinceLayer3Pattern t = [] ∨ provinceLayer3Pattern t ∈ all_provinces := by
  unfold provinceLayer3Pattern
  cases hs : searchLabelGreedy joLits ws (fun c => notWsDigit c && !(c = ',')) 1 t with
  | none => simp [hs]
  | some g =>
    simp only [hs]
    cases h : extract_province_from_text (pyStrip g) with
    | none => simp [h]
    | some p =>
      simp only [h]
      exact Or.inr (extract_province_mem h)

theorem recipientProvince_shape (a t : Str) :
    recipientProvince a t = [] ∨ recipientProvince a t ∈ all_provinces := by
  unfold recipientProvince
  have hp1 : (if a.isEmpty then [] else (extract_province_from_text a).getD []) = [] ∨
      (if a.isEmpty then [] else (extract_province_from_text a).getD []) ∈ all_provinces := by
    by_cases ha : a.isEmpty
    · simp [ha]
    · simp only [ha, Bool.false_eq_true, if_false]
      cases h : extract_province_from_text a with
      | none => simp
      | some p => simpa using Or.inr (extract_province_mem h)
  set p1 := if a.isEmpty then [] else (extract_province_from_text a).getD [] with hp1def
  have hp2 : (if p1.isEmpty then (extract_province_from_text t).getD [] else p1) = [] ∨
      (if p1.isEmpty then (extract_province_from_text t).getD [] else p1) ∈ all_provinces := by
    by_cases h1 : p1.isEmpty
    · simp only [h1, if_true]
      cases h : extract_province_from_text t with
      | none => simp
      | some p => simpa using Or.inr (extract_province_mem h)
    · simp only [h1, Bool.false_eq_true, if_false]
      exact hp1
  set p2 := if p1.isEmpty then (extract_province_from_text t).getD [] else p1 with hp2def
  by_cases h2 : p2.isEmpty
  · simp only [h2, if_true]
    exact provinceLayer3Pattern_shape t
  · simp only [h2, Bool.false_eq_true, if_false]
    exact hp2


theorem extract_person_info_degraded (t : Str) (b : Bool) :
    degradedPerson (extract_person_info t b) := by
  unfold extract_person_info degradedPerson
  refine ⟨extractPhone_shape t, ?_⟩
  by_cases hb : b
  · simp only [hb, if_true]
    exact recipientProvince_shape (extractAddress t) t
  · simp only [hb, Bool.false_eq_true, if_false]
    exact senderProvince_shape (extractAddress t)

/-- C7: the record-extraction functions never throw: `parse_ocr_result`
returns a value (`ok`) for every input and every behaviour of the underlying
`json.loads`, and `_extract_person_info` / `extract_data_from_text` are total
functions whose failures degrade to empty or partial fields — the phone is
empty or a digits-only string of length ≥ 9, and the province is empty or a
canonical province. -/
theorem claim7_extractors_never_throw :
    (∀ (loads : Str → Except PyErr PyVal) (t : Str),
        ∃ v, parse_ocr_result loads t = .ok v) ∧
    (∀ (t : Str) (b : Bool), degradedPerson (extract_person_info t b)) ∧
    (∀ t : Str, degradedPerson (extract_data_from_text t).sender ∧
        degradedPerson (extract_data_from_text t).recipient) := by
  refine ⟨?_, extract_person_info_degraded, ?_⟩
  · intro loads t
    unfold parse_ocr_result
    cases h : parseInner loads t with
    | ok v => exact ⟨v, rfl⟩
    | error e => exact ⟨none, rfl⟩
  · intro t
    have hemp : degradedPerson emptyPerson := ⟨Or.inl rfl, Or.inl rfl⟩
    constructor
    · dsimp only [extract_data_from_text]
      split
      · exact hemp
      · exact extract_person_info_degraded _ _
    · dsimp only [extract_data_from_text]
      split
      · exact hemp
      · exact extract_person_info_degraded _ _

/-- C9: the malformed-JSON repair is the identity on records whose `sender`
and `recipient` fields are already dicts, so applying it twice equals
applying it once. -/
theorem claim9_repair_idempotent (d : Assoc) (s r : List (Str × PyVal))
    (hs : dget d "sender".data = some (.dict s))
    (hr : dget d "recipient".data = some (.dict r)) :
    normalize_ocr_json_result d = d ∧
    normalize_ocr_json_result (normalize_ocr_json_result d) =
      normalize_ocr_json_result d := by
  have h := normalize_noop d s r hs hr
  exact ⟨h, by rw [h]; exact h⟩

/-- Witness for C9 at a concrete object-shaped record. -/
theorem claim9_witness :
    dget [("sender".data, PyVal.dict []),
          ("recipient".data, PyVal.dict [("province".data, PyVal.str "ชลบุรี".data)])]
        "sender".data = some (.dict []) ∧
    dget [("sender".data, PyVal.dict []),
          ("recipient".data, PyVal.dict [("province".data, PyVal.str "ชลบุรี".data)])]
        "recipient".data = some (.dict [("province".data, PyVal.str "ชลบุรี".data)]) ∧
    (normalize_ocr_json_result
        [("sender".data, PyVal.dict []),
         ("recipient".data, PyVal.dict [("province".data, PyVal.str "ชลบุรี".data)])] =
      [("sender".data, PyVal.dict []),
       ("recipient".data, PyVal.dict [("province".data, PyVal.str "ชลบุรี".data)])] ∧
     normalize_ocr_json_result (normalize_ocr_json_result
        [("sender".data, PyVal.dict []),
         ("recipient".data, PyVal.dict [("province".data, PyVal.str "ชลบุรี".data)])]) =
      normalize_ocr_json_result
        [("sender".data, PyVal.dict []),
         ("recipient".data, PyVal.dict [("province".data, PyVal.str "ชลบุรี".data)])]) :=
  ⟨rfl, rfl, claim9_repair_idempotent _ _ _ rfl rfl⟩

/-- C8: in every iteration of the OCR worker, an item enters the Dobot queue
only when the OCR result succeeded and its province is non-empty and
different from the sentinel `ไม่ระบุ` (and the Dobot stage is enabled). -/
theorem claim8_only_routed_enqueued (enableDobot : Bool)
    (st : OcrWorkerStats × List DobotQueueItem) (res : OcrOutcome)
    (it : DobotQueueItem) (h : it ∈ (ocrWorkerStep enableDobot st res).2) :
    it ∈ st.2 ∨
    (res.success = true ∧ res.province = some it.province ∧
     it.province ≠ [] ∧ it.province ≠ "ไม่ระบุ".data ∧ enableDobot = true) := by
  by_cases hsuc : res.success = true
  · cases hp : res.province with
    | none =>
      simp only [ocrWorkerStep, hsuc, hp, if_true] at h
      exact Or.inl h
    | some p =>
      by_cases hg : (enableDobot && !p.isEmpty && !(p = "ไม่ระบุ".data)) = true
      · simp only [ocrWorkerStep, hsuc, hp, hg, if_true] at h
        rcases List.mem_append.mp h with hmem | hmem
        · exact Or.inl hmem
        · have hit : it = ⟨p, res.tracking, res⟩ := by simpa using hmem
          subst hit
          simp only [Bool.and_eq_true, Bool.not_eq_true', decide_eq_false_iff_not] at hg
          obtain ⟨⟨hEn, hNe⟩, hSent⟩ := hg
          have hpne : p ≠ [] := by
            intro hcon
            simp [hcon] at hNe
          exact Or.inr ⟨hsuc, rfl, hpne, hSent, hEn⟩
      · simp only [ocrWorkerStep, hsuc, hp, hg, if_true, Bool.false_eq_true, if_false] at h
        exact Or.inl h
  · simp only [ocrWorkerStep, hsuc, Bool.false_eq_true, if_false] at h
    exact Or.inl h

/-- Witness for C8: a successful, routed result is enqueued and satisfies the
guard. -/
theorem claim8_witness :
    (⟨"เชียงใหม่".data, none, ⟨true, some "เชียงใหม่".data, none, false⟩⟩ : DobotQueueItem) ∈
      (ocrWorkerStep true (⟨0, 0, 0, 0⟩, [])
        ⟨true, some "เชียงใหม่".data, none, false⟩).2 ∧
    ((⟨"เชียงใหม่".data, none, ⟨true, some "เชียงใหม่".data, none, false⟩⟩ : DobotQueueItem) ∈
        ([] : List DobotQueueItem) ∨
      ((⟨true, some "เชียงใหม่".data, none, false⟩ : OcrOutcome).success = true ∧
       (⟨true, some "เชียงใหม่".data, none, false⟩ : OcrOutcome).province =
         some "เชียงใหม่".data ∧
       "เชียงใหม่".data ≠ ([] : Str) ∧ "เชียงใหม่".data ≠ "ไม่ระบุ".data ∧ true = true)) :=
  ⟨by decide, claim8_only_routed_enqueued true (⟨0, 0, 0, 0⟩, [])
    ⟨true, some "เชียงใหม่".data, none, false⟩ _ (by decide)⟩

set_option maxHeartbeats 8000000 in
/-- C4: every canonical province resolves to itself under all three input
forms — the bare name, `จ.` + name, and `จังหวัด` + name. -/
theorem claim4_canonical_forms (p : Str) (hp : p ∈ all_provinces) :
    extract_province_from_text p = some p ∧
    extract_province_from_text ("จ.".data ++ p) = some p ∧
    extract_province_from_text ("จังหวัด".data ++ p) = some p := by
  have hall : all_provinces.all (fun q =>
      (extract_province_from_text q == some q) &&
      (extract_province_from_text ("จ.".data ++ q) == some q) &&
      (extract_province_from_text ("จังหวัด".data ++ q) == some q)) = true := by decide
  have h := List.all_eq_true.mp hall p hp
  simp only [Bool.and_eq_true, beq_iff_eq] at h
  exact ⟨h.1.1, h.1.2, h.2⟩

/-- Witness for C4 at the province เชียงใหม่. -/
theorem claim4_witness :
    "เชียงใหม่".data ∈ all_provinces ∧
    (extract_province_from_text "เชียงใหม่".data = some "เชียงใหม่".data ∧
     extract_province_from_text ("จ.".data ++ "เชียงใหม่".data) = some "เชียงใหม่".data ∧
     extract_province_from_text ("จังหวัด".data ++ "เชียงใหม่".data) = some "เชียงใหม่".data) :=
  ⟨by decide, claim4_canonical_forms "เชียงใหม่".data (by decide)⟩

/-- C1 (code bug): for a connected controller with no motion failure and a
province without a configured drop point (e.g. ชลบุรี, which the source's own
test feeds in), `pick_and_place` does NOT complete successfully via the
reserve drop point: the reserve label `จุดสำรอง` has no entry in
`DROP_POINTS`, so `move_to_drop` fails, `failed_drops` is incremented and
`False` is returned — contradicting the claimed fallback behaviour. -/
theorem claim1_reserve_fallback_fails :
    dropPointLookup "ชลบุรี".data = none ∧
    dropPointLookup "จุดสำรอง".data = none ∧
    (pick_and_place envOk connectedController "ชลบุรี".data).1 = false ∧
    (pick_and_place envOk connectedController "ชลบุรี".data).2.failed_drops = 1 ∧
    (pick_and_place envOk connectedController "ชลบุรี".data).2.raised = 0 :=
  ⟨by decide, by decide, by decide, by decide, by decide⟩

/-- C6 (code bug): when a device command raises in the middle of
`pick_and_place` (here: the very first motion call), the per-command wrapper
swallows the exception and the sequence continues as if it had succeeded:
the call returns `True`, `failed_drops` stays 0 and `successful_drops` is
incremented — the in-sequence recovery (forced suction-off, return home,
`failed_drops + 1`, `False`) claimed by the specification never runs for
device errors. -/
theorem claim6_wrapper_swallows_device_errors :
    (pick_and_place envFirstRaises connectedController "เชียงใหม่".data).1 = true ∧
    (pick_and_place envFirstRaises connectedController "เชียงใหม่".data).2.raised = 1 ∧
    (pick_and_place envFirstRaises connectedController "เชียงใหม่".data).2.failed_drops = 0 ∧
    (pick_and_place envFirstRaises connectedController "เชียงใหม่".data).2.successful_drops = 1 :=
  ⟨by decide, by decide, by decide, by decide⟩

/-- No transition is enabled in `pipeStuck`: the worker has exited (so
nothing can dequeue), `unfinished ≠ 0` (so `join` cannot return), and
`shutdown` is already past its signal. -/
theorem pipeStuck_no_step : ∀ s', ¬ PipeStep pipeStuck s' := by
  intro s' hstep
  cases hstep with
  | enqueue item h hr => exact absurd h (by decide)
  | workerExit h1 h2 => exact absurd h1 (by decide)
  | workerProcess item rest h1 h2 h3 => exact absurd h1 (by decide)
  | shutdownSignal h => exact absurd h (by decide)
  | shutdownJoin h1 h2 => exact absurd h2 (by decide)
  | shutdownThreads h => exact absurd h (by decide)

/-- C5 (code bug): `shutdown` clears `is_running` before waiting on the
queues, so the worker exits at its next loop-top check and an already
enqueued item is never processed: the state with one undrained item is
reachable, and from it nothing ever changes — `ocr_queue.join()` blocks
forever, the queue never drains and `shutdown` never completes, contradicting
the claimed drain property. -/
theorem claim5_shutdown_never_drains :
    PipeReach pipeInit pipeStuck ∧
    (∀ s : PipeState, PipeReach pipeStuck s →
      s = pipeStuck ∧ s.ocrQueue = [7] ∧ s.shutdownPC = 1 ∧ s.workerAlive = false) := by
  constructor
  · have h1 : PipeStep pipeInit ⟨true, 0, [7], 1, true⟩ :=
      PipeStep.enqueue pipeInit 7 rfl rfl
    have h2 : PipeStep ⟨true, 0, [7], 1, true⟩ ⟨false, 1, [7], 1, true⟩ :=
      PipeStep.shutdownSignal _ rfl
    have h3 : PipeStep ⟨false, 1, [7], 1, true⟩ pipeStuck :=
      PipeStep.workerExit _ rfl rfl
    exact Relation.ReflTransGen.head h1
      (Relation.ReflTransGen.head h2 (Relation.ReflTransGen.single h3))
  · intro s hre
    rcases Relation.ReflTransGen.cases_head hre with heq | ⟨t, hstep, _⟩
    · subst heq
      exact ⟨rfl, rfl, rfl, rfl⟩
    · exact absurd hstep (pipeStuck_no_step t)

/-- Witness for C5: instantiating the invariant at the stuck state itself. -/
theorem claim5_witness :
    pipeStuck.ocrQueue = [7] ∧ pipeStuck.shutdownPC = 1 ∧
    PipeReach pipeInit pipeStuck :=
  ⟨(claim5_shutdown_never_drains.2 pipeStuck Relation.ReflTransGen.refl).2.1,
   (claim5_shutdown_never_drains.2 pipeStuck Relation.ReflTransGen.refl).2.2.1,
   claim5_shutdown_never_drains.1⟩

/-! Whitespace, stripping and marker-position lemmas (claim C2 groundwork). -/

theorem ws_toLow (c : Char) : ws (toLow c) = ws c := by
  unfold toLow
  by_cases h : (65 ≤ c.toNat && c.toNat ≤ 90) = true
  · rw [if_pos h]
    rw [Bool.and_eq_true, decide_eq_true_eq, decide_eq_true_eq] at h
    obtain ⟨h1, h2⟩ := h
    have hc : c = Char.ofNat c.toNat := (Char.ofNat_toNat c).symm
    obtain ⟨n, rfl, h1, h2⟩ : ∃ n, c = Char.ofNat n ∧ 65 ≤ n ∧ n ≤ 90 :=
      ⟨c.toNat, hc, h1, h2⟩
    interval_cases n <;> decide
  · rw [if_neg h]

theorem removeWs_append (a b : Str) : removeWs (a ++ b) = removeWs a ++ removeWs b := by
  simp [removeWs]

theorem removeWs_dropWhile (l : Str) : removeWs (l.dropWhile ws) = removeWs l := by
  induction l with
  | nil => rfl
  | cons c cs ih =>
    by_cases h : ws c
    · simp [List.dropWhile, removeWs, h] at ih ⊢
      simpa [removeWs, h] using ih
    · simp [List.dropWhile, h]

theorem removeWs_reverse (l : Str) : removeWs l.reverse = (removeWs l).reverse :=
  List.filter_reverse _ _

theorem removeWs_pyStrip (l : Str) : removeWs (pyStrip l) = removeWs l := by
  unfold pyStrip
  rw [removeWs_reverse, removeWs_dropWhile, removeWs_reverse, removeWs_dropWhile,
    List.reverse_reverse]

theorem pyStrip_ne_nil {l : Str} (h : removeWs l ≠ []) : pyStrip l ≠ [] := by
  intro hc
  apply h
  rw [← removeWs_pyStrip, hc]
  rfl

theorem firstPosSuch_sound {p : Str → Bool} :
    ∀ {l : Str} {i : Nat}, firstPosSuch p l = some i → p (l.drop i) = true := by
  intro l
  induction l with
  | nil => intro i h; simp [firstPosSuch] at h
  | cons c cs ih =>
    intro i h
    unfold firstPosSuch at h
    by_cases hp : p (c :: cs)
    · rw [if_pos hp] at h
      cases h
      exact hp
    · rw [if_neg hp] at h
      cases hj : firstPosSuch p cs with
      | none => rw [hj] at h; cases h
      | some j =>
        rw [hj] at h
        cases h
        simpa using ih hj

theorem firstOcc_sound {lits : List Str} {l : Str} {i : Nat}
    (h : firstOcc lits l = some i) :
    ∃ lit ∈ lits, lit.isPrefixOf (l.drop i) = true := by
  have hp := firstPosSuch_sound h
  exact List.any_eq_true.mp hp

theorem lowerStr_drop (t : Str) (n : Nat) :
    (lowerStr t).drop n = lowerStr (t.drop n) := by
  simp [lowerStr, List.map_drop]

/-- A marker literal matching at a position forces the original text there to
start with a non-whitespace character. -/
theorem marker_head_not_ws {lits : List Str}
    (hlits : lits.all (fun l => !l.isEmpty && !ws (l.headD ' ')) = true)
    {u : Str} (h : ∃ lit ∈ lits, lit.isPrefixOf (lowerStr u) = true) :
    ∃ c rest, u = c :: rest ∧ ws c = false := by
  obtain ⟨lit, hmem, hpre⟩ := h
  have hl := List.all_eq_true.mp hlits lit hmem
  rw [Bool.and_eq_true] at hl
  obtain ⟨hne, hhead⟩ := hl
  cases lit with
  | nil => simp at hne
  | cons lc lrest =>
    cases u with
    | nil => simp [lowerStr] at hpre
    | cons c rest =>
      refine ⟨c, rest, rfl, ?_⟩
      have hmap : lowerStr (c :: rest) = toLow c :: lowerStr rest := rfl
      rw [hmap, List.isPrefixOf, Bool.and_eq_true, beq_iff_eq] at hpre
      have hlc : ws lc = false := by simpa using hhead
      rw [← ws_toLow, ← hpre.1]
      exact hlc

theorem sender_markers_ok :
    sender_markers.all (fun l => !l.isEmpty && !ws (l.headD ' ')) = true := by decide

theorem recipient_markers_ok :
    recipient_markers.all (fun l => !l.isEmpty && !ws (l.headD ' ')) = true := by decide

theorem markersMutuallyPrefixFree :
    sender_markers.all (fun l1 => recipient_markers.all (fun l2 =>
      !(l1.isPrefixOf l2 || l2.isPrefixOf l1))) = true := by decide

/-- A sender marker and a recipient marker never match at the same position:
the earliest sender and recipient positions differ. -/
theorem sender_recip_pos_ne {tl : Str} {s r : Nat}
    (hs : firstOcc sender_markers tl = some s)
    (hr : firstOcc recipient_markers tl = some r) : s ≠ r := by
  intro heq
  subst heq
  obtain ⟨l1, hm1, hp1⟩ := firstOcc_sound hs
  obtain ⟨l2, hm2, hp2⟩ := firstOcc_sound hr
  have k1 : l1 <+: tl.drop s := List.isPrefixOf_iff_prefix.mp hp1
  have k2 : l2 <+: tl.drop s := List.isPrefixOf_iff_prefix.mp hp2
  have hnot := List.all_eq_true.mp (List.all_eq_true.mp markersMutuallyPrefixFree l1 hm1) l2 hm2
  simp only [Bool.not_eq_eq_eq_not, Bool.not_true, Bool.or_eq_false_iff] at hnot
  rcases List.prefix_or_prefix_of_prefix k1 k2 with h12 | h21
  · have h12b : l1.isPrefixOf l2 = true := List.isPrefixOf_iff_prefix.mpr h12
    rw [hnot.1] at h12b
    exact Bool.noConfusion h12b
  · have h21b : l2.isPrefixOf l1 = true := List.isPrefixOf_iff_prefix.mpr h21
    rw [hnot.2] at h21b
    exact Bool.noConfusion h21b


/-- Counterexample to C2 as stated: the text contains a sender marker and a
recipient marker, the splitter returns `("sender: A", "recipient: B")`, and
the concatenation of the halves — even modulo the marker substrings and
whitespace — does not reconstruct the original content: the character `X`
before the earliest marker is lost. -/
theorem claim2_counterexample :
    (firstOcc sender_markers (lowerStr splitterCounterexampleText)).isSome = true ∧
    (firstOcc recipient_markers (lowerStr splitterCounterexampleText)).isSome = true ∧
    smart_split_sender_recipient splitterCounterexampleText =
      ("sender: A".data, "recipient: B".data) ∧
    contentModMarkers ("sender: A".data ++ "recipient: B".data) ≠
      contentModMarkers splitterCounterexampleText := by
  refine ⟨by decide, by decide, by decide, by decide⟩

set_option maxHeartbeats 1000000 in
/-- C2 (amended): for any text containing both a sender marker and a
recipient marker, the two returned halves are non-empty, and their
concatenation — taken in the order the markers occur in the text —
reconstructs, modulo whitespace, the suffix of the text from the earliest
marker on (content before the earliest marker is dropped). -/
theorem claim2_amended_reconstruction (t : Str) (s r : Nat)
    (hs : firstOcc sender_markers (lowerStr t) = some s)
    (hr : firstOcc recipient_markers (lowerStr t) = some r) :
    (smart_split_sender_recipient t).1 ≠ [] ∧
    (smart_split_sender_recipient t).2 ≠ [] ∧
    removeWs (if s < r
        then (smart_split_sender_recipient t).1 ++ (smart_split_sender_recipient t).2
        else (smart_split_sender_recipient t).2 ++ (smart_split_sender_recipient t).1) =
      removeWs (t.drop (min s r)) := by
  have hne := sender_recip_pos_ne hs hr
  have hs' : ∃ lit ∈ sender_markers, lit.isPrefixOf (lowerStr (t.drop s)) = true := by
    rw [← lowerStr_drop]
    exact firstOcc_sound hs
  have hr' : ∃ lit ∈ recipient_markers, lit.isPrefixOf (lowerStr (t.drop r)) = true := by
    rw [← lowerStr_drop]
    exact firstOcc_sound hr
  obtain ⟨c1, rest1, hdrop1, hws1⟩ := marker_head_not_ws sender_markers_ok hs'
  obtain ⟨c2, rest2, hdrop2, hws2⟩ := marker_head_not_ws recipient_markers_ok hr'
  have hsplit : smart_split_sender_recipient t =
      (if s < r then (pyStrip ((t.drop s).take (r - s)), pyStrip (t.drop r))
       else (pyStrip (t.drop s), pyStrip ((t.drop r).take (s - r)))) := by
    simp only [smart_split_sender_recipient]
    rw [hs, hr]
  rcases Nat.lt_trichotomy s r with hlt | heq | hgt
  · have hpos : 0 < r - s := by omega
    refine ⟨?_, ?_, ?_⟩
    · rw [hsplit, if_pos hlt]
      apply pyStrip_ne_nil
      rw [hdrop1, List.take_cons hpos]
      simp [removeWs, hws1]
    · rw [hsplit, if_pos hlt]
      apply pyStrip_ne_nil
      rw [hdrop2]
      simp [removeWs, hws2]
    · have hmin : min s r = s := by omega
      rw [hsplit, if_pos hlt, if_pos hlt, hmin]
      rw [removeWs_append, removeWs_pyStrip, removeWs_pyStrip, ← removeWs_append]
      congr 1
      have hB : (t.drop s).drop (r - s) = t.drop r := by
        rw [List.drop_drop]
        congr 1
        omega
      rw [← hB, List.take_append_drop]
  · exact absurd heq hne
  · have hnlt : ¬ s < r := by omega
    have hpos : 0 < s - r := by omega
    refine ⟨?_, ?_, ?_⟩
    · rw [hsplit, if_neg hnlt]
      apply pyStrip_ne_nil
      rw [hdrop1]
      simp [removeWs, hws1]
    · rw [hsplit, if_neg hnlt]
      apply pyStrip_ne_nil
      rw [hdrop2, List.take_cons hpos]
      simp [removeWs, hws2]
    · have hmin : min s r = r := by omega
      rw [hsplit, if_neg hnlt, if_neg hnlt, hmin]
      rw [removeWs_append, removeWs_pyStrip, removeWs_pyStrip, ← removeWs_append]
      congr 1
      have hB : (t.drop r).drop (s - r) = t.drop s := by
        rw [List.drop_drop]
        congr 1
        omega
      rw [← hB, List.take_append_drop]

/-- Witness for the amended C2 at the concrete split text. -/
theorem claim2_witness :
    firstOcc sender_markers (lowerStr splitterCounterexampleText) = some 1 ∧
    firstOcc recipient_markers (lowerStr splitterCounterexampleText) = some 11 ∧
    ((smart_split_sender_recipient splitterCounterexampleText).1 ≠ [] ∧
     (smart_split_sender_recipient splitterCounterexampleText).2 ≠ [] ∧
     removeWs (if 1 < 11
        then (smart_split_sender_recipient splitterCounterexampleText).1 ++
          (smart_split_sender_recipient splitterCounterexampleText).2
        else (smart_split_sender_recipient splitterCounterexampleText).2 ++
          (smart_split_sender_recipient splitterCounterexampleText).1) =
      removeWs (splitterCounterexampleText.drop (min 1 11))) :=
  ⟨by decide, by decide,
   claim2_amended_reconstruction splitterCounterexampleText 1 11 (by decide) (by decide)⟩

/-! Thai-token lemmas (claim C10 groundwork). -/

theorem provinces_thai :
    all_provinces.all (fun p => !p.isEmpty && p.all isThai) = true := by decide

theorem thaiTokensGo_all_thai :
    ∀ (l cur : Str), l.all isThai = true →
      thaiTokensGo cur l = if (cur.reverse ++ l).isEmpty then [] else [cur.reverse ++ l] := by
  intro l
  induction l with
  | nil =>
    intro cur _
    simp [thaiTokensGo]
  | cons c cs ih =>
    intro cur hall
    rw [List.all_cons, Bool.and_eq_true] at hall
    unfold thaiTokensGo
    rw [if_pos hall.1, ih (c :: cur) hall.2]
    have hre : (c :: cur).reverse ++ cs = cur.reverse ++ (c :: cs) := by
      simp
    rw [hre]

theorem thaiTokens_of_thai {l : Str} (hne : l ≠ []) (hall : l.all isThai = true) :
    thaiTokens l = [l] := by
  unfold thaiTokens
  rw [thaiTokensGo_all_thai l [] hall]
  simp [hne]

theorem thaiTokensGo_mem_within :
    ∀ (l cur w : Str), w ∈ thaiTokensGo cur l → w <:+: (cur.reverse ++ l) := by
  intro l
  induction l with
  | nil =>
    intro cur w hw
    unfold thaiTokensGo at hw
    by_cases h : cur.isEmpty
    · simp [h] at hw
    · rw [if_neg h] at hw
      have : w = cur.reverse := by simpa using hw
      subst this
      simp
  | cons c cs ih =>
    intro cur w hw
    unfold thaiTokensGo at hw
    by_cases hthai : isThai c
    · rw [if_pos hthai] at hw
      have := ih (c :: cur) w hw
      have hre : (c :: cur).reverse ++ cs = cur.reverse ++ (c :: cs) := by simp
      rwa [hre] at this
    · rw [if_neg hthai] at hw
      by_cases hcur : cur.isEmpty
      · rw [if_pos hcur] at hw
        have hsub := ih [] w hw
        simp only [List.reverse_nil, List.nil_append] at hsub
        obtain ⟨a, b, hab⟩ := hsub
        exact ⟨cur.reverse ++ [c] ++ a, b, by rw [← hab]; simp⟩
      · rw [if_neg hcur] at hw
        rcases List.mem_cons.mp hw with hww | hww
        · subst hww
          exact ⟨[], c :: cs, by simp⟩
        · have hsub := ih [] w hww
          simp only [List.reverse_nil, List.nil_append] at hsub
          obtain ⟨a, b, hab⟩ := hsub
          exact ⟨cur.reverse ++ [c] ++ a, b, by rw [← hab]; simp⟩

theorem isSub_of_within {p l : Str} (h : p <:+: l) : isSub p l = true := by
  induction l with
  | nil =>
    rw [List.infix_nil] at h
    subst h
    rfl
  | cons c cs ih =>
    rcases List.infix_cons_iff.mp h with hpre | hinf
    · unfold isSub
      rw [List.isPrefixOf_iff_prefix.mpr hpre]
      rfl
    · unfold isSub
      rw [ih hinf, Bool.or_true]

/-- If the direct substring layer finds nothing, the fuzzy token layer cannot
find anything either: a shared token with a (single-token, all-Thai) province
name is that whole name, occurring as a maximal Thai run — hence as a
substring — of the text. -/
theorem layer3_none_of_layer2_none {u : Str} (h2 : layer2 u = none) :
    layer3 u = none := by
  cases h3 : layer3 u with
  | none => rfl
  | some p =>
    exfalso
    have hmem : p ∈ all_provinces := layer3_mem h3
    have hpred := List.find?_some h3
    have hth := List.all_eq_true.mp provinces_thai p hmem
    rw [Bool.and_eq_true] at hth
    have hpne : p ≠ [] := by simpa using hth.1
    rw [List.any_eq_true] at hpred
    obtain ⟨w, hwmem, hwc⟩ := hpred
    rw [thaiTokens_of_thai hpne hth.2] at hwmem
    have hw : w = p := by simpa using hwmem
    subst hw
    have hwin : w ∈ thaiTokens u := List.elem_iff.mp hwc
    have hinf : w <:+: u := by
      have := thaiTokensGo_mem_within u [] w hwin
      simpa using this
    have hsubt : isSub w u = true := isSub_of_within hinf
    have hnone := List.find?_eq_none.mp h2 w hmem
    rw [Bool.or_eq_true] at hnone
    exact hnone (Or.inl hsubt)

/-- C10: the fuzzy token-intersection layer is redundant — the resolver with
and without its third layer agree on every input. -/
theorem claim10_fuzzy_layer_redundant (t : Str) :
    extract_province_from_text t = extract_province_without_layer3 t := by
  unfold extract_province_from_text extract_province_without_layer3
  by_cases he : t.isEmpty
  · simp [he]
  · simp only [he, Bool.false_eq_true, if_false]
    cases h1 : layer1 (pyStrip t) with
    | some p => rfl
    | none =>
      cases h2 : layer2 (pyStrip t) with
      | some p => rfl
      | none => exact layer3_none_of_layer2_none h2

/-! Claim C3: how the pipeline's recipient data flows, isolated from the
sender field. -/


theorem dget_normalize_dset_sender (d : Assoc) (v : PyVal)
    (hv : ∀ s, v ≠ PyVal.str s) :
    dget (normalize_ocr_json_result (dset d "sender".data v)) "recipient".data =
      recipRepairStep (dget d "recipient".data) := by
  have hsget : dget (dset d "sender".data v) "sender".data = some v :=
    dget_dset_self d "sender".data v
  have hrget : dget (dset d "sender".data v) "recipient".data = dget d "recipient".data :=
    dget_dset_ne d "sender".data "recipient".data v (by decide)
  simp only [normalize_ocr_json_result, hsget, Option.getD_some]
  cases v with
  | str s => exact absurd rfl (hv s)
  | dict f =>
    simp only [normalizeCases23, hrget]
    cases hrv : dget d "recipient".data with
    | none => simp [normalizeCase3, recipRepairStep, hrget, hrv]
    | some rv =>
      cases rv with
      | str rr => simp [recipRepairStep, dget_dset_self]
      | dict rf =>
        by_cases hrt : pyTruthy (PyVal.dict rf) = true
        · simp [hrt, hrget, hrv, recipRepairStep]
        · simp [hrt, normalizeCase3, hrget, hrv, recipRepairStep]
      | pynull =>
        simp [pyTruthy, normalizeCase3, hrget, hrv, recipRepairStep]
  | pynull =>
    simp only [normalizeCases23, hrget]
    cases hrv : dget d "recipient".data with
    | none => simp [normalizeCase3, recipRepairStep, hrget, hrv]
    | some rv =>
      cases rv with
      | str rr => simp [recipRepairStep, dget_dset_self]
      | dict rf =>
        by_cases hrt : pyTruthy (PyVal.dict rf) = true
        · simp [hrt, hrget, hrv, recipRepairStep]
        · simp [hrt, normalizeCase3, hrget, hrv, recipRepairStep]
      | pynull =>
        simp [pyTruthy, normalizeCase3, hrget, hrv, recipRepairStep]

theorem dget_normalize_dset_sender_self (d : Assoc) (v : PyVal)
    (hv : ∀ s, v ≠ PyVal.str s) :
    dget (normalize_ocr_json_result (dset d "sender".data v)) "sender".data =
      some v := by
  have hsget : dget (dset d "sender".data v) "sender".data = some v :=
    dget_dset_self d "sender".data v
  have hrget : dget (dset d "sender".data v) "recipient".data = dget d "recipient".data :=
    dget_dset_ne d "sender".data "recipient".data v (by decide)
  simp only [normalize_ocr_json_result, hsget, Option.getD_some]
  cases v with
  | str s => exact absurd rfl (hv s)
  | dict f =>
    simp only [normalizeCases23, hrget]
    cases hrv : dget d "recipient".data with
    | none => simp [normalizeCase3, hsget]
    | some rv =>
      cases rv with
      | str rr =>
        rw [dget_dset_ne _ "recipient".data "sender".data _ (by decide), hsget]
      | dict rf =>
        by_cases hrt : pyTruthy (PyVal.dict rf) = true
        · simp [hrt, hsget]
        · simp [hrt, normalizeCase3, hsget]
      | pynull =>
        simp [pyTruthy, normalizeCase3, hsget]
  | pynull =>
    simp only [normalizeCases23, hrget]
    cases hrv : dget d "recipient".data with
    | none => simp [normalizeCase3, hsget]
    | some rv =>
      cases rv with
      | str rr =>
        rw [dget_dset_ne _ "recipient".data "sender".data _ (by decide), hsget]
      | dict rf =>
        by_cases hrt : pyTruthy (PyVal.dict rf) = true
        · simp [hrt, hsget]
        · simp [hrt, normalizeCase3, hsget]
      | pynull =>
        simp [pyTruthy, normalizeCase3, hsget]

theorem normSenderStep_safe (d : Assoc) (v : PyVal)
    (hS : dget d "sender".data = some v) (hv : senderProvinceSafe v = true) :
    ∃ d1, normSenderStep d = Except.ok d1 ∧
      dget d1 "recipient".data = dget d "recipient".data := by
  cases v with
  | str s => exact ⟨d, by simp [normSenderStep, hS], rfl⟩
  | pynull => exact ⟨d, by simp [normSenderStep, hS], rfl⟩
  | dict s =>
    cases hp : (dget s "province".data).getD (PyVal.str []) with
    | str t =>
      cases hx : extract_province_from_text t with
      | none => exact ⟨d, by simp [normSenderStep, hS, hp, hx], rfl⟩
      | some n =>
        exact ⟨dset d "sender".data (.dict (dset s "province".data (.str n))),
          by simp [normSenderStep, hS, hp, hx],
          dget_dset_ne d "sender".data "recipient".data _ (by decide)⟩
    | dict pd =>
      have hf : pyTruthy (PyVal.dict pd) = false := by
        have hv2 := hv
        simp only [senderProvinceSafe, hp] at hv2
        revert hv2
        cases pyTruthy (PyVal.dict pd) <;> simp
      exact ⟨d, by simp [normSenderStep, hS, hp, hf], rfl⟩
    | pynull =>
      exact ⟨d, by simp [normSenderStep, hS, hp, pyTruthy], rfl⟩

theorem npd_of_senderStep (d d1 : Assoc) (hA : normSenderStep d = Except.ok d1) :
    normalize_province_data d =
      (match dget d1 "recipient".data with
       | some (.dict r) =>
         match normRecipValue r with
         | .error e => .error e
         | .ok r2 => .ok (dset d1 "recipient".data (.dict r2))
       | _ => .ok d1) := by
  simp only [normalize_province_data, hA]

/-- With a non-string sender value whose canonicalization step cannot raise,
the pipeline outcome is a function of the recipient value alone. -/
theorem pipeline_ignores_safe_sender (d : Assoc) (v : PyVal)
    (hv : ∀ s, v ≠ PyVal.str s) (hsafe : senderProvinceSafe v = true) :
    pipelineProvince (dset d "sender".data v) =
      pipelineFromRecipOnly (dget d "recipient".data) := by
  obtain ⟨d1, hA, hR1⟩ :=
    normSenderStep_safe (normalize_ocr_json_result (dset d "sender".data v)) v
      (dget_normalize_dset_sender_self d v hv) hsafe
  have hR : dget d1 "recipient".data =
      recipRepairStep (dget d "recipient".data) :=
    hR1.trans (dget_normalize_dset_sender d v hv)
  unfold pipelineProvince pipelineFromRecipOnly
  rw [npd_of_senderStep _ _ hA, hR]
  cases hrv : recipRepairStep (dget d "recipient".data) with
  | none =>
    simp only [recipNormalizeStep, provinceOf]
    rw [hR, hrv]
  | some rv =>
    cases rv with
    | dict r =>
      simp only [recipNormalizeStep]
      cases hnr : normRecipValue r with
      | error e => rfl
      | ok r2 =>
        simp only [provinceOf]
        rw [dget_dset_self]
    | str s2 =>
      simp only [recipNormalizeStep, provinceOf]
      rw [hR, hrv]
    | pynull =>
      simp only [recipNormalizeStep, provinceOf]
      rw [hR, hrv]

/-- Counterexample to C3 as stated: two pairs of parsed payloads, each pair
differing only in the contents of its `sender` field, resolve to different
outcomes.  String senders: the malformed-shape repair rebuilds the missing
recipient from the sender text, so the provinces (and regions) differ.
Non-string senders: a dict sender whose `province` entry is a truthy
non-string makes the whole record fail (the error path of process.py:360),
while a null sender over the same recipient resolves normally. -/
theorem claim3_counterexample :
    dset c3Payload "sender".data c3SenderB = [("sender".data, c3SenderB)] ∧
    provinceValStr (pipelineProvince c3Payload) = some "เชียงใหม่".data ∧
    provinceValStr (pipelineProvince [("sender".data, c3SenderB)]) =
      some "ภูเก็ต".data ∧
    pipelineProvince c3Payload ≠ pipelineProvince [("sender".data, c3SenderB)] ∧
    pipelineRegion c3Payload ≠ pipelineRegion [("sender".data, c3SenderB)] ∧
    isPipeErr (pipelineProvince (dset c3Recip "sender".data c3CrashSender)) = true ∧
    provinceValStr (pipelineProvince (dset c3Recip "sender".data PyVal.pynull)) =
      some "ลพบุรี".data ∧
    pipelineProvince (dset c3Recip "sender".data c3CrashSender) ≠
      pipelineProvince (dset c3Recip "sender".data PyVal.pynull) :=
  ⟨rfl, by decide, by decide,
    fun h => absurd (congrArg provinceValStr h) (by decide),
    fun h => absurd (congrArg regionValStr h) (by decide),
    by decide, by decide,
    fun h => absurd (congrArg provinceValStr h) (by decide)⟩

/-- C3 (amended): whenever the `sender` field is not a string in both
payloads — so the malformed-shape repair never rebuilds the recipient from
sender text — and neither sender value makes the province-canonicalization
step raise (its `province` entry, if a dict sender has one, is falsy or a
string), two payloads that differ only in their `sender` field produce the
same pipeline outcome: the same resolved province and the same region. -/
theorem claim3_amended_sender_noninterference (d : Assoc) (v₁ v₂ : PyVal)
    (h1 : ∀ s, v₁ ≠ PyVal.str s) (h2 : ∀ s, v₂ ≠ PyVal.str s)
    (h1s : senderProvinceSafe v₁ = true) (h2s : senderProvinceSafe v₂ = true) :
    pipelineProvince (dset d "sender".data v₁) =
      pipelineProvince (dset d "sender".data v₂) ∧
    pipelineRegion (dset d "sender".data v₁) =
      pipelineRegion (dset d "sender".data v₂) := by
  have e1 := pipeline_ignores_safe_sender d v₁ h1 h1s
  have e2 := pipeline_ignores_safe_sender d v₂ h2 h2s
  have hp := e1.trans e2.symm
  exact ⟨hp, by unfold pipelineRegion; rw [hp]⟩

/-- Witness for the amended C3: an object-shaped sender carrying a
string-valued province (so the sender canonicalization step really runs and
rewrites it) against a null sender, over the same recipient. -/
theorem claim3_witness :
    senderProvinceSafe (PyVal.dict [("province".data, PyVal.str "จ.ชลบุรี".data)]) = true ∧
    senderProvinceSafe PyVal.pynull = true ∧
    (pipelineProvince (dset [("recipient".data,
        PyVal.dict [("province".data, PyVal.str "ลพบุรี".data)])]
        "sender".data (PyVal.dict [("province".data, PyVal.str "จ.ชลบุรี".data)])) =
      pipelineProvince (dset [("recipient".data,
        PyVal.dict [("province".data, PyVal.str "ลพบุรี".data)])]
        "sender".data PyVal.pynull) ∧
    pipelineRegion (dset [("recipient".data,
        PyVal.dict [("province".data, PyVal.str "ลพบุรี".data)])]
        "sender".data (PyVal.dict [("province".data, PyVal.str "จ.ชลบุรี".data)])) =
      pipelineRegion (dset [("recipient".data,
        PyVal.dict [("province".data, PyVal.str "ลพบุรี".data)])]
        "sender".data PyVal.pynull)) :=
  ⟨by decide, by decide,
    claim3_amended_sender_noninterference _ _ _
      (fun _ h => PyVal.noConfusion h) (fun _ h => PyVal.noConfusion h)
      (by decide) (by decide)⟩

end ParcelSort
